import Mathlib

/-!
Verification development for the existential-to-generic argument
specialization transform (`ExistentialTransform.cpp`): a shallow embedding
of the transform's data model and operations, followed by theorems about
the specified properties.

The embedding mirrors, definition by definition:
* `ExistentialSpecializerCloner::cloneArguments` and
  `cloneAndPopulateFunction` (the Body Cloner),
* `ExistentialTransform::convertExistentialArgTypesToGenericArgTypes`
  (the Generic Signature Synthesizer),
* `ExistentialTransform::createExistentialSpecializedFunctionType`
  (the Specialized Function Type Builder),
* `ExistentialTransform::populateThunkBody` (the Thunk Builder),
* `ExistentialTransform::createExistentialSpecializedFunction` (the Driver),
plus a value-level semantics used to state behavioral equivalence of the
pre-transform function and the thunk/twin pair.

SIL machine details are modelled as plain Lean data: SIL values are numbered
(SSA ids), instructions are an explicit inductive, builders are explicit
state, fallible paths (assertions, `llvm_unreachable`) return `Option`.
External collaborators that are not part of the source file (the name
mangler, `buildGenericSignature`, `TermInst::isFunctionExiting`) are
modelled from the specification and marked as such in their doc comments.
-/

namespace ETransform

/-- AST-level types, as far as the transform inspects them: protocol
(existential) types with an optional class constraint, protocol
compositions with an optional superclass bound, the `ExistentialType`
wrapper whose `getConstraintType` the synthesizer unwraps, generic type
parameters (depth, index), opened existential archetypes, and opaque
concrete types. -/
inductive ASTType where
  | protoTy (name : String) (classConstrained : Bool)
  | protoCompositionTy (superclass : Option String) (members : List String)
      (classConstrained : Bool)
  | existentialTy (constraint : ASTType)
  | genericParamTy (depth : Nat) (index : Nat)
  | openedArchetypeTy (existential : ASTType)
  | concreteTy (name : String)
  | intTy
  | neverTy
deriving DecidableEq, Repr

/-- `Type::isExistentialType()`: protocol types, protocol compositions and
`ExistentialType` wrappers are existential. -/
def ASTType.isExistentialType : ASTType → Bool
  | .protoTy _ _ => true
  | .protoCompositionTy _ _ _ => true
  | .existentialTy _ => true
  | _ => false

/-- The erasure step of the synthesizer: `PType->getAs<ExistentialType>()`
followed by `getConstraintType()->getCanonicalType()`; any other type is
its own constraint. -/
def ASTType.eraseToConstraint : ASTType → ASTType
  | .existentialTy c => c
  | t => t

/-- Whether the existential layout requires a class instance (drives the
preferred existential representation). -/
def ASTType.requiresClass : ASTType → Bool
  | .protoTy _ cc => cc
  | .protoCompositionTy sup _ cc => cc || sup.isSome
  | .existentialTy c => c.requiresClass
  | _ => false

/-- SIL type category: a value in a register vs. a value at an address. -/
inductive TypeCategory where
  | object
  | address
deriving DecidableEq, Repr

/-- A lowered SIL type: an AST type together with its category. -/
structure SILType where
  ast : ASTType
  category : TypeCategory
deriving DecidableEq, Repr

/-- `SILType::getObjectType()`. -/
def SILType.getObjectType (t : SILType) : SILType :=
  { t with category := TypeCategory.object }

/-- `SILType::isObject()`. -/
def SILType.isObject (t : SILType) : Bool :=
  t.category == TypeCategory.object

/-- The closed set of existential representations the transform branches
over; only `Opaque` and `Class` are handled, everything else is a fatal
internal-invariant violation. -/
inductive ExistentialRepresentation where
  | NoneRepr
  | Opaque
  | Class
  | Metatype
  | Boxed
deriving DecidableEq, Repr

/-- `SILType::getPreferredExistentialRepresentation()`: class-bound
existentials are reference-counted (`Class`), other existentials live
behind an address (`Opaque`), non-existentials have no representation. -/
def SILType.preferredExistentialRepresentation (t : SILType) :
    ExistentialRepresentation :=
  if !(t.ast.isExistentialType) then ExistentialRepresentation.NoneRepr
  else if t.ast.requiresClass then ExistentialRepresentation.Class
  else ExistentialRepresentation.Opaque

/-- SIL parameter conventions, as far as the transform distinguishes them. -/
inductive ParameterConvention where
  | directOwned
  | directGuaranteed
  | directUnowned
  | indirectIn
  | indirectInGuaranteed
  | indirectInout
deriving DecidableEq, Repr

/-- SIL value-ownership kinds. -/
inductive OwnershipKind where
  | noOwnership
  | unowned
  | owned
  | guaranteed
deriving DecidableEq, Repr

/-- `ValueOwnershipKind(F, type, convention)`: addresses and values in
functions without ownership tracking have no ownership; otherwise the
convention determines the flavor. -/
def valueOwnership (hasOwnership : Bool) (ty : SILType)
    (conv : ParameterConvention) : OwnershipKind :=
  if !hasOwnership then OwnershipKind.noOwnership
  else if ty.category == TypeCategory.address then OwnershipKind.noOwnership
  else
    match conv with
    | ParameterConvention.directOwned => OwnershipKind.owned
    | ParameterConvention.directGuaranteed => OwnershipKind.guaranteed
    | ParameterConvention.directUnowned => OwnershipKind.unowned
    | _ => OwnershipKind.noOwnership

/-- The argument flags `SILFunctionArgument::copyFlags` transfers. -/
structure ArgumentFlags where
  noImplicitCopy : Bool := false
  lifetimeMark : Nat := 0
  closureCapture : Bool := false
deriving DecidableEq, Repr

/-- The data of one original function argument the descriptors carry:
its lowered type, optional source declaration handle, flags and
convention (`ArgumentDescriptor.Arg`). -/
structure SILArgument where
  type : SILType
  decl : Option Nat
  flags : ArgumentFlags
  convention : ParameterConvention
deriving DecidableEq, Repr

/-- One per original parameter: positional index plus the argument data
(`ArgumentDescriptor` of FunctionSignatureOpts). -/
structure ArgumentDescriptor where
  index : Nat
  arg : SILArgument
deriving DecidableEq, Repr

/-- Access mode used when opening the existential in the thunk. -/
inductive OpenedExistentialAccess where
  | Immutable
  | Mutable
deriving DecidableEq, Repr

/-- Per-transformed-argument descriptor: whether the original value is
consumed by the function and the access mode for opening it. -/
structure ExistentialTransformArgumentDescriptor where
  isConsumed : Bool
  accessType : OpenedExistentialAccess
deriving DecidableEq, Repr

/-- Association-list lookup keyed by argument index, modelling the
`SmallDenseMap<int, ...>::find` calls. -/
def lookupIdx {β : Type} : List (Nat × β) → Nat → Option β
  | [], _ => Option.none
  | (k, v) :: rest, i => if k = i then some v else lookupIdx rest i

/-- A freshly synthesized generic type parameter (`GenericTypeParamType`),
identified by nesting depth and index. -/
structure GenericTypeParamType where
  depth : Nat
  index : Nat
deriving DecidableEq, Repr

/-- Association-list lookup keyed by a generic parameter, modelling
`SmallDenseMap<GenericTypeParamType *, Type>::find`. -/
def lookupGP {β : Type} : List (GenericTypeParamType × β) →
    GenericTypeParamType → Option β
  | [], _ => Option.none
  | (k, v) :: rest, g => if k = g then some v else lookupGP rest g

/-- Requirement kinds; the synthesizer only emits conformance requirements. -/
inductive RequirementKind where
  | conformance
  | superclass
  | sameType
  | layout
deriving DecidableEq, Repr

/-- A generic requirement: kind, subject parameter, constraint type. -/
structure Requirement where
  kind : RequirementKind
  subject : GenericTypeParamType
  constraint : ASTType
deriving DecidableEq, Repr

/-- A generic signature: ordered parameters plus requirements. -/
structure GenericSignature where
  genericParams : List GenericTypeParamType
  requirements : List Requirement
deriving DecidableEq, Repr

/-- `GenericSignature::getNextDepth()`: one past the last parameter's depth,
zero for an empty signature. -/
def GenericSignature.getNextDepth (sig : GenericSignature) : Nat :=
  match sig.genericParams.getLast? with
  | Option.none => 0
  | some p => p.depth + 1

/-- A SIL parameter of a lowered function type: interface type plus
convention. -/
structure SILParameterInfo where
  type : ASTType
  convention : ParameterConvention
deriving DecidableEq, Repr

/-- A SIL (direct) result of a lowered function type. -/
structure SILResultInfo where
  type : ASTType
deriving DecidableEq, Repr

/-- Function-type representation; the twin is forced to `thin`. -/
inductive FunctionRepresentation where
  | thick
  | thin
  | method
deriving DecidableEq, Repr

/-- The `ExtInfo` bits the transform touches. -/
structure SILExtInfo where
  representation : FunctionRepresentation
deriving DecidableEq, Repr

/-- A lowered SIL function type, as far as the transform reads and
rebuilds it. -/
structure SILFunctionType where
  invocationGenericSig : GenericSignature
  extInfo : SILExtInfo
  params : List SILParameterInfo
  result : SILResultInfo
  errorResult : Option SILResultInfo
deriving DecidableEq, Repr

/-- `SILFunctionType::hasErrorResult()`. -/
def SILFunctionType.hasErrorResult (t : SILFunctionType) : Bool :=
  t.errorResult.isSome

/-- `SILFunction::isNoReturnFunction`: the direct result is uninhabited. -/
def SILFunctionType.isNoReturnFunction (t : SILFunctionType) : Bool :=
  t.result.type == ASTType.neverTy

/-- A SIL value: its SSA id, lowered type and ownership kind. -/
structure SILValue where
  id : Nat
  type : SILType
  ownership : OwnershipKind
deriving DecidableEq, Repr

/-- Load ownership qualifiers used by `emitLoadValueOperation`. -/
inductive LoadQualifier where
  | take
  | copy
  | unqualified
deriving DecidableEq, Repr

/-- The SIL instructions the transform emits, with explicit result ids where
the instruction produces a value. -/
inductive InstrKind where
  | allocStack (resultId : Nat) (ty : SILType)
  | initExistentialAddr (resultId : Nat) (container : Nat) (concreteTy : ASTType)
  | copyAddr (src : Nat) (dest : Nat) (isTake : Bool)
  | loadValue (resultId : Nat) (addr : Nat) (qual : LoadQualifier)
  | copyValue (resultId : Nat) (operand : Nat)
  | initExistentialRef (resultId : Nat) (operand : Nat) (existentialTy : SILType)
      (concreteTy : ASTType)
  | storeValue (src : Nat) (destAddr : Nat)
  | openExistentialAddr (resultId : Nat) (operand : Nat)
      (access : OpenedExistentialAccess)
  | openExistentialRef (resultId : Nat) (operand : Nat)
  | functionRef (resultId : Nat) (name : String)
  | applyInst (resultId : Nat) (callee : Nat) (args : List Nat)
  | destroyOp (operand : Nat)
  | deallocStack (operand : Nat)
deriving DecidableEq, Repr

/-- A SIL builder: instructions emitted so far, together with the next fresh
SSA id. -/
structure SILBuilder where
  instrs : List InstrKind
  nextId : Nat
deriving DecidableEq, Repr

/-- Allocate a fresh SSA id. -/
def SILBuilder.fresh (b : SILBuilder) : Nat × SILBuilder :=
  (b.nextId, { b with nextId := b.nextId + 1 })

/-- Append one emitted instruction. -/
def SILBuilder.emit (b : SILBuilder) (i : InstrKind) : SILBuilder :=
  { b with instrs := b.instrs ++ [i] }

/-- `SILBuilder::createAllocStack`: yields the address of a fresh
stack slot; addresses carry no ownership. -/
def SILBuilder.createAllocStack (b : SILBuilder) (ty : SILType) :
    SILValue × SILBuilder :=
  let (i, b) := b.fresh
  (⟨i, ⟨ty.ast, TypeCategory.address⟩, OwnershipKind.noOwnership⟩,
   b.emit (InstrKind.allocStack i ty))

/-- `SILBuilder::createInitExistentialAddr`: projects the concrete payload
address out of the existential container. -/
def SILBuilder.createInitExistentialAddr (b : SILBuilder) (container : SILValue)
    (concreteTy : SILType) : SILValue × SILBuilder :=
  let (i, b) := b.fresh
  (⟨i, ⟨concreteTy.ast, TypeCategory.address⟩, OwnershipKind.noOwnership⟩,
   b.emit (InstrKind.initExistentialAddr i container.id concreteTy.ast))

/-- `SILBuilder::createCopyAddr` with `IsInitialization`. -/
def SILBuilder.createCopyAddr (b : SILBuilder) (src dest : SILValue)
    (isTake : Bool) : SILBuilder :=
  b.emit (InstrKind.copyAddr src.id dest.id isTake)

/-- `SILBuilder::emitLoadValueOperation`: loads an object out of an address;
in a function with ownership the result is owned. -/
def SILBuilder.emitLoadValueOperation (b : SILBuilder) (hasOwnership : Bool)
    (addr : SILValue) (qual : LoadQualifier) : SILValue × SILBuilder :=
  let (i, b) := b.fresh
  (⟨i, ⟨addr.type.ast, TypeCategory.object⟩,
    if hasOwnership then OwnershipKind.owned else OwnershipKind.noOwnership⟩,
   b.emit (InstrKind.loadValue i addr.id qual))

/-- `SILBuilder::emitCopyValueOperation`: the copy is an owned value. -/
def SILBuilder.emitCopyValueOperation (b : SILBuilder) (v : SILValue) :
    SILValue × SILBuilder :=
  let (i, b) := b.fresh
  (⟨i, v.type, OwnershipKind.owned⟩, b.emit (InstrKind.copyValue i v.id))

/-- `SILBuilder::createInitExistentialRef`: boxes a class reference into an
existential reference value, forwarding the operand's ownership. -/
def SILBuilder.createInitExistentialRef (b : SILBuilder)
    (existentialTy : SILType) (concreteTy : ASTType) (operand : SILValue) :
    SILValue × SILBuilder :=
  let (i, b) := b.fresh
  (⟨i, existentialTy, operand.ownership⟩,
   b.emit (InstrKind.initExistentialRef i operand.id existentialTy concreteTy))

/-- `SILBuilder::emitStoreValueOperation` with `Init`. -/
def SILBuilder.emitStoreValueOperation (b : SILBuilder) (src dest : SILValue) :
    SILBuilder :=
  b.emit (InstrKind.storeValue src.id dest.id)

/-- `SILBuilder::createOpenExistentialAddr`: a borrowed address projection
into the existential box. -/
def SILBuilder.createOpenExistentialAddr (b : SILBuilder) (operand : SILValue)
    (openedTy : SILType) (access : OpenedExistentialAccess) :
    SILValue × SILBuilder :=
  let (i, b) := b.fresh
  (⟨i, openedTy, OwnershipKind.noOwnership⟩,
   b.emit (InstrKind.openExistentialAddr i operand.id access))

/-- `SILBuilder::createOpenExistentialRef`: forwards the operand's
ownership. -/
def SILBuilder.createOpenExistentialRef (b : SILBuilder) (operand : SILValue)
    (openedTy : SILType) : SILValue × SILBuilder :=
  let (i, b) := b.fresh
  (⟨i, openedTy, operand.ownership⟩,
   b.emit (InstrKind.openExistentialRef i operand.id))

/-- State of the Body Cloner while it builds the twin's entry block:
the builder, the created block arguments, and the two append-only cleanup
lists (`AllocStackInsts`, `CleanupValues`) plus the values handed to the
cloned body (`entryArgs`). -/
structure CloneState where
  builder : SILBuilder
  newArgs : List SILValue
  allocStackInsts : List SILValue
  cleanupValues : List SILValue
  entryArgs : List SILValue
deriving DecidableEq, Repr

/-- `SILBasicBlock::createFunctionArgument` on the cloned entry block. -/
def CloneState.createFunctionArgument (st : CloneState) (ty : SILType)
    (own : OwnershipKind) : SILValue × CloneState :=
  let (i, b) := st.builder.fresh
  let v : SILValue := ⟨i, ty, own⟩
  (v, { st with builder := b, newArgs := st.newArgs ++ [v] })

/-- One iteration of the loop of
`ExistentialSpecializerCloner::cloneArguments`: for an untransformed
argument, clone it as-is; for a transformed one, create the generic
argument and re-derive an existential-shaped value from it according to
the existential representation (`Opaque` or `Class`); any other
representation is `llvm_unreachable`, modelled as failure. -/
def cloneArgument (hasOwnership : Bool)
    (argToGenericTypeMap : List (Nat × GenericTypeParamType))
    (existentialArgDescriptor :
      List (Nat × ExistentialTransformArgumentDescriptor))
    (st : CloneState) (argDesc : ArgumentDescriptor) : Option CloneState :=
  match lookupIdx argToGenericTypeMap argDesc.index with
  | Option.none =>
    -- Clone arguments that are not rewritten.
    let mappedTy := argDesc.arg.type
    let own := valueOwnership hasOwnership mappedTy argDesc.arg.convention
    let (newArg, st) := st.createFunctionArgument mappedTy own
    some { st with entryArgs := st.entryArgs ++ [newArg] }
  | some gp =>
    -- Create the generic argument.
    let genericSILType : SILType :=
      ⟨ASTType.genericParamTy gp.depth gp.index, argDesc.arg.type.category⟩
    let own := valueOwnership hasOwnership genericSILType argDesc.arg.convention
    let (newArg, st) := st.createFunctionArgument genericSILType own
    let ead := (lookupIdx existentialArgDescriptor argDesc.index).getD
      ⟨false, OpenedExistentialAccess.Immutable⟩
    match argDesc.arg.type.preferredExistentialRepresentation with
    | ExistentialRepresentation.Opaque =>
      let (asi, b) := st.builder.createAllocStack argDesc.arg.type
      let st := { st with builder := b,
                          allocStackInsts := st.allocStackInsts ++ [asi] }
      let (eai, b) := st.builder.createInitExistentialAddr asi genericSILType
      let st := { st with builder := b }
      let origConsumed := ead.isConsumed
      -- If the existential is not consumed in the function body, then the one
      -- we introduce here needs cleanup.
      let st :=
        if !origConsumed then
          { st with cleanupValues := st.cleanupValues ++ [asi] }
        else st
      let st := { st with builder := st.builder.createCopyAddr newArg eai
                            origConsumed }
      some { st with entryArgs := st.entryArgs ++ [asi] }
    | ExistentialRepresentation.Class =>
      let origConsumed := ead.isConsumed
      -- Load our object if needed and if our original value was not consumed,
      -- make a copy in ossa.
      let (newArgValue, st) :=
        if !(newArg.type.isObject) then
          let qual := if hasOwnership && !origConsumed then LoadQualifier.copy
                      else LoadQualifier.take
          let (v, b) := st.builder.emitLoadValueOperation hasOwnership newArg
            qual
          (v, { st with builder := b })
        else (newArg, st)
      let (newArgValue, st) :=
        if hasOwnership && newArg.ownership == OwnershipKind.unowned then
          let (v, b) := st.builder.emitCopyValueOperation newArg
          (v, { st with builder := b })
        else (newArgValue, st)
      let (initRef, st) :=
        let (v, b) := st.builder.createInitExistentialRef
          (argDesc.arg.type.getObjectType) genericSILType.ast newArgValue
        (v, { st with builder := b })
      let st :=
        if hasOwnership && newArg.ownership == OwnershipKind.unowned then
          { st with cleanupValues := st.cleanupValues ++ [initRef] }
        else st
      -- If the original argument was address-based, re-spill the boxed
      -- reference into a fresh stack slot.
      let (resultVal, st) :=
        if !(newArg.type.isObject) then
          let (alloc, b) := st.builder.createAllocStack initRef.type
          let b := b.emitStoreValueOperation initRef alloc
          (alloc, { st with builder := b,
                            allocStackInsts := st.allocStackInsts ++ [alloc] })
        else (initRef, st)
      some { st with entryArgs := st.entryArgs ++ [resultVal] }
    | _ => Option.none

/-- The loop of `cloneArguments` over the argument descriptor list. -/
def cloneArgumentsLoop (hasOwnership : Bool)
    (argToGenericTypeMap : List (Nat × GenericTypeParamType))
    (existentialArgDescriptor :
      List (Nat × ExistentialTransformArgumentDescriptor)) :
    CloneState → List ArgumentDescriptor → Option CloneState
  | st, [] => some st
  | st, d :: rest =>
    match cloneArgument hasOwnership argToGenericTypeMap
        existentialArgDescriptor st d with
    | Option.none => Option.none
    | some st' => cloneArgumentsLoop hasOwnership argToGenericTypeMap
        existentialArgDescriptor st' rest

/-- The Body Cloner's starting state: no instructions, fresh ids from 0,
empty bookkeeping lists. -/
def initialCloneState : CloneState :=
  ⟨⟨[], 0⟩, [], [], [], []⟩

/-- `ExistentialSpecializerCloner::cloneArguments`. -/
def cloneArguments (hasOwnership : Bool)
    (argToGenericTypeMap : List (Nat × GenericTypeParamType))
    (existentialArgDescriptor :
      List (Nat × ExistentialTransformArgumentDescriptor))
    (argumentDescList : List ArgumentDescriptor) : Option CloneState :=
  cloneArgumentsLoop hasOwnership argToGenericTypeMap existentialArgDescriptor
    initialCloneState argumentDescList

/-- Block terminators. `tryApplyInst` carries the indices of its normal and
error successor blocks. -/
inductive Terminator where
  | returnInst (v : Nat)
  | throwInst (v : Nat)
  | unreachableInst
  | branchInst (target : Nat)
  | condBranchInst (cond : Nat) (tgtTrue : Nat) (tgtFalse : Nat)
  | tryApplyInst (callee : Nat) (args : List Nat) (normalDest : Nat)
      (errorDest : Nat)
deriving DecidableEq, Repr

/-- Modelled from the spec: `SILFunction::findExitingBlocks` is an external
collaborator not in the source file; per the specification, a function
exit is a block terminated by return, throw or unreachable. -/
def Terminator.isFunctionExiting : Terminator → Bool
  | .returnInst _ => true
  | .throwInst _ => true
  | .unreachableInst => true
  | _ => false

/-- A basic block: its instructions and its terminator. -/
structure SILBasicBlock where
  instrs : List InstrKind
  term : Terminator
deriving DecidableEq, Repr

/-- The exit-cleanup insertion of `cloneAndPopulateFunction`: before the
terminator of every exiting block, a destroy for each registered cleanup
value in registration order (the `CleanupValues` loop iterates forward),
then a `dealloc_stack` for each registered slot in reverse registration
order (`llvm::reverse(AllocStackInsts)`). -/
def emitExitCleanup (cleanupValues allocStackInsts : List SILValue)
    (bb : SILBasicBlock) : SILBasicBlock :=
  if bb.term.isFunctionExiting then
    { bb with instrs := bb.instrs
        ++ cleanupValues.map (fun v => InstrKind.destroyOp v.id)
        ++ allocStackInsts.reverse.map (fun a => InstrKind.deallocStack a.id) }
  else bb

/-- `ExistentialSpecializerCloner::cloneAndPopulateFunction`: build the
entry block via `cloneArguments`, clone the original body (the cloned body
is taken as given, the generic cloning collaborator being out of scope),
then insert the prolog cleanups at every exiting block. The assertion that
no cleanup value is guaranteed is modelled as a guard. -/
def cloneAndPopulateFunction (hasOwnership : Bool)
    (argToGenericTypeMap : List (Nat × GenericTypeParamType))
    (existentialArgDescriptor :
      List (Nat × ExistentialTransformArgumentDescriptor))
    (argumentDescList : List ArgumentDescriptor)
    (clonedBody : List SILBasicBlock) :
    Option (CloneState × List SILBasicBlock) :=
  match cloneArguments hasOwnership argToGenericTypeMap
      existentialArgDescriptor argumentDescList with
  | Option.none => Option.none
  | some st =>
    if st.cleanupValues.all
        (fun v => v.ownership != OwnershipKind.guaranteed) then
      some (st, clonedBody.map (emitExitCleanup st.cleanupValues
        st.allocStackInsts))
    else Option.none

/-- The inputs of one transform invocation: the original function's name,
linkage, lowered type and ownership mode, its argument descriptor list,
and the per-transformed-argument descriptors (an association list keyed by
argument index; the dense map's iteration order is modelled as the list
order). -/
structure ExistentialTransformCtx where
  fName : String
  fLinkage : Nat
  fType : SILFunctionType
  hasOwnership : Bool
  argumentDescList : List ArgumentDescriptor
  existentialArgDescriptor :
    List (Nat × ExistentialTransformArgumentDescriptor)
deriving DecidableEq, Repr

/-- Output of the Generic Signature Synthesizer: the fresh parameters, their
conformance requirements, and the populated `ArgToGenericTypeMap`. -/
structure ConvertResult where
  genericParams : List GenericTypeParamType
  requirements : List Requirement
  argToGenericTypeMap : List (Nat × GenericTypeParamType)
deriving DecidableEq, Repr

/-- The loop of `convertExistentialArgTypesToGenericArgTypes`: one fresh
generic parameter `(Depth, GPIdx++)` per transformed argument, one
conformance requirement whose constraint is the erased constraint type of
that argument's existential parameter type, and one mapping entry. The
`assert(PType.isExistentialType())` is a guard; an out-of-range index
fails. -/
def convertLoop (params : List SILParameterInfo) (depth : Nat) :
    Nat → List (Nat × ExistentialTransformArgumentDescriptor) →
    Option ConvertResult
  | _, [] => some ⟨[], [], []⟩
  | gpIdx, (idx, _) :: rest =>
    match params[idx]? with
    | Option.none => Option.none
    | some param =>
      if param.type.isExistentialType then
        let constraint := param.type.eraseToConstraint
        let newGenericParam : GenericTypeParamType := ⟨depth, gpIdx⟩
        match convertLoop params depth (gpIdx + 1) rest with
        | Option.none => Option.none
        | some r =>
          some ⟨newGenericParam :: r.genericParams,
                ⟨RequirementKind.conformance, newGenericParam, constraint⟩ ::
                  r.requirements,
                (idx, newGenericParam) :: r.argToGenericTypeMap⟩
      else Option.none

/-- `ExistentialTransform::convertExistentialArgTypesToGenericArgTypes`:
`Depth` is the original signature's next depth, parameter indices count up
from 0 in iteration order. -/
def convertExistentialArgTypesToGenericArgTypes
    (ctx : ExistentialTransformCtx) : Option ConvertResult :=
  convertLoop ctx.fType.params ctx.fType.invocationGenericSig.getNextDepth 0
    ctx.existentialArgDescriptor

/-- Modelled from the spec: `buildGenericSignature` is a
generic-signature-construction collaborator that merges the new
parameters and requirements with the existing signature at the deeper
nesting depth. -/
def buildGenericSignature (orig : GenericSignature)
    (newParams : List GenericTypeParamType) (newReqs : List Requirement) :
    GenericSignature :=
  ⟨orig.genericParams ++ newParams, orig.requirements ++ newReqs⟩

/-- The parameter-rebuild loop of `createExistentialSpecializedFunctionType`:
each transformed index's parameter type is replaced by its generic
parameter, keeping the convention; untransformed parameters are kept. -/
def rebuildParams (argToGenericTypeMap : List (Nat × GenericTypeParamType)) :
    Nat → List SILParameterInfo → List SILParameterInfo
  | _, [] => []
  | idx, p :: rest =>
    (match lookupIdx argToGenericTypeMap idx with
     | some gp => ⟨ASTType.genericParamTy gp.depth gp.index, p.convention⟩
     | Option.none => p) :: rebuildParams argToGenericTypeMap (idx + 1) rest

/-- The Specialized Function Type Builder's output: the new lowered type and
the populated index-to-parameter mapping. -/
structure TypeBuilderResult where
  newFType : SILFunctionType
  argToGenericTypeMap : List (Nat × GenericTypeParamType)
deriving DecidableEq, Repr

/-- `ExistentialTransform::createExistentialSpecializedFunctionType`: run
the synthesizer, merge the signature, rebuild the parameters, keep the
result and error-result shape, and force the thin representation. -/
def createExistentialSpecializedFunctionType
    (ctx : ExistentialTransformCtx) : Option TypeBuilderResult :=
  match convertExistentialArgTypesToGenericArgTypes ctx with
  | Option.none => Option.none
  | some conv =>
    let newGenericSig := buildGenericSignature ctx.fType.invocationGenericSig
      conv.genericParams conv.requirements
    let interfaceParams := rebuildParams conv.argToGenericTypeMap 0
      ctx.fType.params
    let interfaceErrorResult := ctx.fType.errorResult
    let extInfo : SILExtInfo :=
      { ctx.fType.extInfo with representation := FunctionRepresentation.thin }
    some ⟨⟨newGenericSig, extInfo, interfaceParams, ctx.fType.result,
           interfaceErrorResult⟩,
          conv.argToGenericTypeMap⟩

/-- Modelled from the spec: the name mangler is an external collaborator; it
is a deterministic pure function of the original function's identity and
the set of transformed argument indices. -/
def mangleExistentialToGeneric (fName : String) (indices : List Nat) :
    String :=
  fName ++ "_spec_" ++ String.intercalate "_" (indices.map toString)

/-- `ExistentialTransform::createExistentialSpecializedFunctionName`: mark
every transformed index in the mangler and mangle. -/
def createExistentialSpecializedFunctionName
    (ctx : ExistentialTransformCtx) : String :=
  mangleExistentialToGeneric ctx.fName
    (ctx.existentialArgDescriptor.map (fun p => p.1))

/-- One entry of the thunk's `Temps` list: an optional stack slot to
deallocate and an optional value to destroy after the call. -/
structure Temp where
  deallocStackEntry : Option SILValue
  destroyValue : Option SILValue
deriving DecidableEq, Repr

/-- Thunk kinds; the rewritten original is a signature-optimized thunk. -/
inductive ThunkKind where
  | isNotThunk
  | isThunkKind
  | isReabstractionThunk
  | isSignatureOptimizedThunk
deriving DecidableEq, Repr

/-- Inline strategies; the thunk is marked always-inline. -/
inductive InlineStrategy where
  | inlineDefault
  | noInline
  | alwaysInline
deriving DecidableEq, Repr

/-- A block parameter of the thunk's entry block: the data
`createFunctionArgument` plus `copyFlags` transfers. -/
structure BlockArg where
  type : SILType
  decl : Option Nat
  flags : ArgumentFlags
deriving DecidableEq, Repr

/-- State of the thunk-building loop: builder, collected apply arguments,
temporaries needing post-call cleanup, and the generic-parameter to
opened-type map. -/
structure ThunkLoopState where
  builder : SILBuilder
  applyArgs : List SILValue
  temps : List Temp
  genericToOpenedTypeMap : List (GenericTypeParamType × ASTType)
deriving DecidableEq, Repr

/-- The thunk entry block's own arguments (positional ids, original types,
default ownership for the function's conventions). -/
def thunkArgVals (hasOwnership : Bool) :
    Nat → List ArgumentDescriptor → List SILValue
  | _, [] => []
  | i, d :: rest =>
    ⟨i, d.arg.type, valueOwnership hasOwnership d.arg.type
      d.arg.convention⟩ :: thunkArgVals hasOwnership (i + 1) rest

/-- One iteration of the argument loop of
`ExistentialTransform::populateThunkBody`: a transformed argument (present
in both maps) is opened/unboxed according to its representation, with the
consumed-copy and address-respill handling of the source; an untransformed
argument is passed through. Any unhandled representation is
`llvm_unreachable`, modelled as failure. -/
def thunkProcessArgument (hasOwnership : Bool)
    (argToGenericTypeMap : List (Nat × GenericTypeParamType))
    (existentialArgDescriptor :
      List (Nat × ExistentialTransformArgumentDescriptor))
    (argVals : List SILValue) (st : ThunkLoopState)
    (d : ArgumentDescriptor) : Option ThunkLoopState :=
  match lookupIdx argToGenericTypeMap d.index,
        lookupIdx existentialArgDescriptor d.index with
  | some gp, some etad =>
    match argVals[d.index]? with
    | Option.none => Option.none
    | some origOperand =>
      let swiftAST := d.arg.type.ast
      let openedAST := ASTType.openedArchetypeTy swiftAST
      let openedSILType : SILType :=
        ⟨openedAST, if swiftAST.requiresClass then TypeCategory.object
                    else TypeCategory.address⟩
      let originallyConsumed := etad.isConsumed
      let stRes : Option ThunkLoopState :=
        match d.arg.type.preferredExistentialRepresentation with
        | ExistentialRepresentation.Opaque =>
          let (av, b) := st.builder.createOpenExistentialAddr origOperand
            openedSILType etad.accessType
          let st := { st with builder := b }
          if originallyConsumed then
            -- The callee consumes the generic value: pass in a copy drawn
            -- from the borrowed projection, remember the temp and the
            -- original box.
            let (asi, b) := st.builder.createAllocStack openedSILType
            let b := b.createCopyAddr av asi false
            let st := { st with builder := b }
            let st := { st with temps :=
              st.temps ++ [(⟨some asi, some origOperand⟩ : Temp)] }
            some { st with applyArgs := st.applyArgs ++ [asi] }
          else
            some { st with applyArgs := st.applyArgs ++ [av] }
        | ExistentialRepresentation.Class =>
          let (origValue, st) :=
            if !(origOperand.type.isObject) then
              let qual := if hasOwnership && !originallyConsumed then
                  LoadQualifier.copy
                else LoadQualifier.take
              let (v, b) := st.builder.emitLoadValueOperation hasOwnership
                origOperand qual
              (v, { st with builder := b })
            else if hasOwnership && !originallyConsumed then
              let (v, b) := st.builder.emitCopyValueOperation origOperand
              (v, { st with builder := b })
            else (origOperand, st)
          let (av, b) := st.builder.createOpenExistentialRef origValue
            openedSILType
          let st := { st with builder := b }
          if !(origOperand.type.isObject) then
            let (asi, b) := st.builder.createAllocStack openedSILType
            let b := b.emitStoreValueOperation av asi
            let st := { st with builder := b }
            let st := { st with temps :=
              st.temps ++ [(⟨some asi, Option.none⟩ : Temp)] }
            some { st with applyArgs := st.applyArgs ++ [asi] }
          else
            let st :=
              if hasOwnership && !originallyConsumed then
                { st with temps :=
                  st.temps ++ [(⟨Option.none, some av⟩ : Temp)] }
              else st
            some { st with applyArgs := st.applyArgs ++ [av] }
        | _ => Option.none
      match stRes with
      | Option.none => Option.none
      | some st' =>
        some { st' with genericToOpenedTypeMap :=
                 st'.genericToOpenedTypeMap ++ [(gp, openedAST)] }
  | _, _ =>
    match argVals[d.index]? with
    | Option.none => Option.none
    | some v => some { st with applyArgs := st.applyArgs ++ [v] }

/-- The argument loop of `populateThunkBody`. -/
def thunkLoop (hasOwnership : Bool)
    (argToGenericTypeMap : List (Nat × GenericTypeParamType))
    (existentialArgDescriptor :
      List (Nat × ExistentialTransformArgumentDescriptor))
    (argVals : List SILValue) :
    ThunkLoopState → List ArgumentDescriptor → Option ThunkLoopState
  | st, [] => some st
  | st, d :: rest =>
    match thunkProcessArgument hasOwnership argToGenericTypeMap
        existentialArgDescriptor argVals st d with
    | Option.none => Option.none
    | some st' => thunkLoop hasOwnership argToGenericTypeMap
        existentialArgDescriptor argVals st' rest

/-- The substitution-map construction for the apply: parameters of the
original function's own signature (shallower depth) are forwarded through
the original substitutions; the newly introduced parameters substitute the
opened type recorded during unboxing, a lookup miss being an assertion
failure. -/
def buildThunkSubMap (calleeSig : GenericSignature) (origDepth : Nat)
    (genericToOpenedTypeMap : List (GenericTypeParamType × ASTType)) :
    Option (List (GenericTypeParamType × ASTType)) :=
  calleeSig.genericParams.mapM (fun gp =>
    if gp.depth < origDepth then
      some (gp, ASTType.genericParamTy gp.depth gp.index)
    else
      match lookupGP genericToOpenedTypeMap gp with
      | some t => some (gp, t)
      | Option.none => Option.none)

/-- Substituting generic parameters in an AST type under a substitution
map. -/
def ASTType.substGP (m : List (GenericTypeParamType × ASTType)) :
    ASTType → ASTType
  | ASTType.genericParamTy d i =>
    (match lookupGP m ⟨d, i⟩ with
     | some t => t
     | Option.none => ASTType.genericParamTy d i)
  | ASTType.existentialTy c => ASTType.existentialTy (ASTType.substGP m c)
  | t => t

/-- The post-call cleanup of the thunk: iterate `Temps` in reverse; per
entry destroy the recorded value, then deallocate the recorded slot. -/
def tempCleanupInstrs (temps : List Temp) : List InstrKind :=
  (temps.reverse.map (fun t =>
    (match t.destroyValue with
     | some v => [InstrKind.destroyOp v.id]
     | Option.none => [])
    ++ (match t.deallocStackEntry with
        | some a => [InstrKind.deallocStack a.id]
        | Option.none => []))).flatten

/-- A successor block of the thunk's `try_apply`: its phi argument (id,
type, ownership), its instructions and its terminator. -/
structure SuccessorBlock where
  phiId : Nat
  phiType : SILType
  phiOwnership : OwnershipKind
  instrs : List InstrKind
  term : Terminator
deriving DecidableEq, Repr

/-- The fully built thunk: the function-level fields of the rewritten
original (name, linkage, lowered type, thunk and inline attributes), its
entry block (arguments, instructions, terminator), the `try_apply`
successor blocks when present, plus the recorded apply arguments and
temporaries. -/
structure ThunkOutput where
  name : String
  linkage : Nat
  loweredType : SILFunctionType
  thunk : ThunkKind
  inlineStrategy : InlineStrategy
  entryArgs : List BlockArg
  entryInstrs : List InstrKind
  entryTerm : Terminator
  normalBlock : Option SuccessorBlock
  errorBlock : Option SuccessorBlock
  applyArgs : List SILValue
  temps : List Temp
deriving DecidableEq, Repr

/-- The thunk builder's argument phase: the builder starts after the
`function_ref` to the twin (fresh ids continue after the thunk's own
block arguments), and the loop processes every argument descriptor. -/
def runThunkLoop (ctx : ExistentialTransformCtx) (newFName : String)
    (argToGenericTypeMap : List (Nat × GenericTypeParamType)) :
    Option ThunkLoopState :=
  thunkLoop ctx.hasOwnership argToGenericTypeMap
    ctx.existentialArgDescriptor
    (thunkArgVals ctx.hasOwnership 0 ctx.argumentDescList)
    ⟨⟨[InstrKind.functionRef ctx.argumentDescList.length newFName],
      ctx.argumentDescList.length + 1⟩, [], [], []⟩
    ctx.argumentDescList

/-- `ExistentialTransform::populateThunkBody`: discard the original body,
mark the function a signature-optimized always-inline thunk, recreate the
original argument list, open/unbox the transformed arguments, build the
substitution map, emit `try_apply` (when the twin can fail, with a normal
block receiving the result and an error block immediately re-raising the
failure value) or a plain `apply`, emit the post-call cleanups, and
terminate with `unreachable` for a no-return twin, else `return`. -/
def populateThunkBody (ctx : ExistentialTransformCtx) (newFName : String)
    (newFTy : SILFunctionType)
    (argToGenericTypeMap : List (Nat × GenericTypeParamType)) :
    Option ThunkOutput :=
  let entryArgs : List BlockArg := ctx.argumentDescList.map
    (fun d => ⟨d.arg.type, d.arg.decl, d.arg.flags⟩)
  let friId := ctx.argumentDescList.length
  match runThunkLoop ctx newFName argToGenericTypeMap with
  | Option.none => Option.none
  | some st =>
    match buildThunkSubMap newFTy.invocationGenericSig
        ctx.fType.invocationGenericSig.getNextDepth
        st.genericToOpenedTypeMap with
    | Option.none => Option.none
    | some subMap =>
      let resultType : SILType :=
        ⟨ASTType.substGP subMap newFTy.result.type, TypeCategory.object⟩
      let cleanups := tempCleanupInstrs st.temps
      match newFTy.errorResult with
      | some er =>
        let (normalPhiId, b2) := st.builder.fresh
        let (errorPhiId, b3) := b2.fresh
        let errorType : SILType :=
          ⟨ASTType.substGP subMap er.type, TypeCategory.object⟩
        let finalTerm := if newFTy.isNoReturnFunction then
            Terminator.unreachableInst
          else Terminator.returnInst normalPhiId
        some { name := ctx.fName, linkage := ctx.fLinkage,
               loweredType := ctx.fType,
               thunk := ThunkKind.isSignatureOptimizedThunk,
               inlineStrategy := InlineStrategy.alwaysInline,
               entryArgs := entryArgs, entryInstrs := b3.instrs,
               entryTerm := Terminator.tryApplyInst friId
                 (st.applyArgs.map (fun v => v.id)) 1 2,
               normalBlock := some ⟨normalPhiId, resultType,
                 OwnershipKind.owned, cleanups, finalTerm⟩,
               errorBlock := some ⟨errorPhiId, errorType,
                 OwnershipKind.owned, [], Terminator.throwInst errorPhiId⟩,
               applyArgs := st.applyArgs, temps := st.temps }
      | Option.none =>
        let (applyId, b2) := st.builder.fresh
        let b2 := b2.emit (InstrKind.applyInst applyId friId
          (st.applyArgs.map (fun v => v.id)))
        let finalTerm := if newFTy.isNoReturnFunction then
            Terminator.unreachableInst
          else Terminator.returnInst applyId
        some { name := ctx.fName, linkage := ctx.fLinkage,
               loweredType := ctx.fType,
               thunk := ThunkKind.isSignatureOptimizedThunk,
               inlineStrategy := InlineStrategy.alwaysInline,
               entryArgs := entryArgs, entryInstrs := b2.instrs ++ cleanups,
               entryTerm := finalTerm,
               normalBlock := Option.none, errorBlock := Option.none,
               applyArgs := st.applyArgs, temps := st.temps }

/-- An entry of the module-wide function table. -/
structure SILFunctionInfo where
  name : String
  loweredType : SILFunctionType
deriving DecidableEq, Repr

/-- `SILModule::lookUpFunction` by name. -/
def lookUpFunction (fns : List SILFunctionInfo) (name : String) :
    Option SILFunctionInfo :=
  fns.find? (fun f => f.name == name)

/-- The Driver's result: the module function table after the run, the twin's
name and type, whether the cached twin was reused, the freshly populated
twin body (when created), and the thunk. -/
structure DriverResult where
  functions : List SILFunctionInfo
  newFName : String
  newFType : SILFunctionType
  reusedCache : Bool
  twin : Option (CloneState × List SILBasicBlock)
  thunk : ThunkOutput
deriving DecidableEq, Repr

/-- `ExistentialTransform::createExistentialSpecializedFunction`: compute
the specialized name and type; on a cache hit assert the cached type
matches exactly (modelled as a guard) and reuse the cached twin, otherwise
create the twin and populate it with the Body Cloner; either way rewrite
the original into the thunk. -/
def createExistentialSpecializedFunction (fns : List SILFunctionInfo)
    (ctx : ExistentialTransformCtx) (origBody : List SILBasicBlock) :
    Option DriverResult :=
  match createExistentialSpecializedFunctionType ctx with
  | Option.none => Option.none
  | some tb =>
    match lookUpFunction fns (createExistentialSpecializedFunctionName ctx) with
    | some cachedFn =>
      -- The specialized body still exists; assert its type matches.
      if cachedFn.loweredType == tb.newFType then
        match populateThunkBody ctx cachedFn.name cachedFn.loweredType
            tb.argToGenericTypeMap with
        | Option.none => Option.none
        | some thunk =>
          some ⟨fns, createExistentialSpecializedFunctionName ctx,
                cachedFn.loweredType, true, Option.none, thunk⟩
      else Option.none
    | Option.none =>
      match cloneAndPopulateFunction ctx.hasOwnership
          tb.argToGenericTypeMap ctx.existentialArgDescriptor
          ctx.argumentDescList origBody with
      | Option.none => Option.none
      | some twin =>
        match populateThunkBody ctx
            (createExistentialSpecializedFunctionName ctx) tb.newFType
            tb.argToGenericTypeMap with
        | Option.none => Option.none
        | some thunk =>
          some ⟨fns ++ [⟨createExistentialSpecializedFunctionName ctx,
                  tb.newFType⟩],
                createExistentialSpecializedFunctionName ctx, tb.newFType,
                false, some twin, thunk⟩

/-- Observable runtime values for the behavioral-equivalence statement:
integers, concrete values of some erased type, and existential boxes
holding such a value. -/
inductive RuntimeValue where
  | intVal (n : Int)
  | concreteVal (tyName : String) (payload : Int)
  | boxedVal (tyName : String) (payload : Int)
deriving DecidableEq, Repr

/-- Whether a runtime value is an existential box. -/
def RuntimeValue.isBoxed : RuntimeValue → Bool
  | .boxedVal _ _ => true
  | _ => false

/-- The observable outcome of one invocation: a normal result or a
propagated failure value. -/
abbrev ExecResult := Except RuntimeValue RuntimeValue

/-- Opening an existential box at the value level (the thunk's
`open_existential_addr`/`open_existential_ref`, plus any ownership copy,
which does not change the observable value). -/
def openExistentialValue : RuntimeValue → Option RuntimeValue
  | .boxedVal t p => some (.concreteVal t p)
  | _ => Option.none

/-- Re-boxing a concrete value into a fresh existential (the twin prolog's
`alloc_stack` + `init_existential_addr` + `copy_addr`, or
`init_existential_ref`). -/
def boxExistentialValue : RuntimeValue → Option RuntimeValue
  | .concreteVal t p => some (.boxedVal t p)
  | _ => Option.none

/-- Open every transformed argument; untransformed arguments pass through. -/
def openArgValues : List Bool → List RuntimeValue →
    Option (List RuntimeValue)
  | [], [] => some []
  | tr :: ts, v :: vs => do
    let v' ← if tr then openExistentialValue v else some v
    let rest ← openArgValues ts vs
    some (v' :: rest)
  | _, _ => Option.none

/-- Re-box every transformed argument; untransformed arguments pass
through. -/
def reboxArgValues : List Bool → List RuntimeValue →
    Option (List RuntimeValue)
  | [], [] => some []
  | tr :: ts, v :: vs => do
    let v' ← if tr then boxExistentialValue v else some v
    let rest ← reboxArgValues ts vs
    some (v' :: rest)
  | _, _ => Option.none

/-- The pre-transform function: its body runs directly on the existential
arguments. -/
def origSem (body : List RuntimeValue → ExecResult)
    (args : List RuntimeValue) : ExecResult :=
  body args

/-- The twin's semantics per the Body Cloner: the prolog re-boxes each
generic argument into an existential-shaped value and the unchanged cloned
body runs on those. -/
def twinSem (transformed : List Bool)
    (body : List RuntimeValue → ExecResult)
    (cargs : List RuntimeValue) : Option ExecResult := do
  let boxed ← reboxArgValues transformed cargs
  some (body boxed)

/-- The thunk's call-result forwarding: on the `try_apply` normal path the
result is returned, on the error path the failure value is immediately
re-thrown; a plain `apply` forwards the result unchanged. -/
def forwardCallResult (r : ExecResult) : ExecResult :=
  match r with
  | Except.ok v => Except.ok v
  | Except.error e => Except.error e

/-- The thunk's semantics per `populateThunkBody`: open every transformed
argument, invoke the twin, forward result and failure. -/
def thunkSem (transformed : List Bool)
    (twin : List RuntimeValue → Option ExecResult)
    (args : List RuntimeValue) : Option ExecResult := do
  let opened ← openArgValues transformed args
  let r ← twin opened
  some (forwardCallResult r)

/-- Valid inputs for the transformed function: one argument per position,
every transformed position holding an existential box. -/
def validExistentialArgs : List Bool → List RuntimeValue → Bool
  | [], [] => true
  | tr :: ts, v :: vs => (!tr || v.isBoxed) && validExistentialArgs ts vs
  | _, _ => false

/-- Recognizer for destroy instructions. -/
def isDestroyInstr : InstrKind → Bool
  | .destroyOp _ => true
  | _ => false

/-- Recognizer for `dealloc_stack` instructions. -/
def isDeallocStackInstr : InstrKind → Bool
  | .deallocStack _ => true
  | _ => false

/-- Recognizer for `alloc_stack` instructions. -/
def isAllocStackInstr : InstrKind → Bool
  | .allocStack _ _ => true
  | _ => false

/-- Recognizer for `copy_value` instructions. -/
def isCopyValueInstr : InstrKind → Bool
  | .copyValue _ _ => true
  | _ => false

/-- Recognizer for plain `apply` instructions. -/
def isApplyInstr : InstrKind → Bool
  | .applyInst _ _ _ => true
  | _ => false

/-- The erased constraint of the function-type parameter at an index
(total helper used to state the synthesizer's contract). -/
def paramConstraintAt (params : List SILParameterInfo) (idx : Nat) : ASTType :=
  match params[idx]? with
  | some p => p.type.eraseToConstraint
  | Option.none => ASTType.neverTy

/-- Example protocol type `P` (no class constraint). -/
def exProtoP : ASTType := ASTType.protoTy "P" false

/-- Example lowered `$*P`. -/
def exPSIL : SILType := ⟨exProtoP, TypeCategory.address⟩

/-- Example borrowed opaque existential argument at index 0. -/
def exArgBorrowed : ArgumentDescriptor :=
  ⟨0, ⟨exPSIL, Option.none, {}, ParameterConvention.indirectInGuaranteed⟩⟩

/-- Example borrowed opaque existential argument at index 1. -/
def exArgBorrowed1 : ArgumentDescriptor :=
  ⟨1, ⟨exPSIL, Option.none, {}, ParameterConvention.indirectInGuaranteed⟩⟩

/-- Example lowered type of `F(x: P) -> Int`. -/
def exFType : SILFunctionType :=
  ⟨⟨[], []⟩, ⟨FunctionRepresentation.thick⟩,
   [⟨exProtoP, ParameterConvention.indirectInGuaranteed⟩],
   ⟨ASTType.intTy⟩, Option.none⟩

/-- Example transform input: `F(x: P) -> Int`, `x` opaque, borrowed,
opened immutably (the spec's concrete scenario). -/
def exCtx : ExistentialTransformCtx :=
  ⟨"F", 0, exFType, true, [exArgBorrowed],
   [(0, ⟨false, OpenedExistentialAccess.Immutable⟩)]⟩

/-- Example cloned body: a single returning block. -/
def exBody : List SILBasicBlock := [⟨[], Terminator.returnInst 99⟩]

/-- Example index-to-parameter map for two transformed arguments. -/
def exTwoMap : List (Nat × GenericTypeParamType) := [(0, ⟨0, 0⟩), (1, ⟨0, 1⟩)]

/-- Example descriptors for two borrowed arguments. -/
def exTwoEad : List (Nat × ExistentialTransformArgumentDescriptor) :=
  [(0, ⟨false, OpenedExistentialAccess.Immutable⟩),
   (1, ⟨false, OpenedExistentialAccess.Immutable⟩)]

/-- Example class-constrained protocol type `C`. -/
def exProtoC : ASTType := ASTType.protoTy "C" true

/-- Example lowered `$C` (object category). -/
def exCSIL : SILType := ⟨exProtoC, TypeCategory.object⟩

/-- Example class existential argument passed with the unowned convention. -/
def exArgUnowned : ArgumentDescriptor :=
  ⟨0, ⟨exCSIL, Option.none, {}, ParameterConvention.directUnowned⟩⟩

/-- Example class existential argument passed owned. -/
def exArgOwned : ArgumentDescriptor :=
  ⟨0, ⟨exCSIL, Option.none, {}, ParameterConvention.directOwned⟩⟩

/-- Example single-entry index-to-parameter map. -/
def exOneMap : List (Nat × GenericTypeParamType) := [(0, ⟨0, 0⟩)]

/-- Example single-entry transformed-argument descriptor map (borrowed). -/
def exOneEad : List (Nat × ExistentialTransformArgumentDescriptor) :=
  [(0, ⟨false, OpenedExistentialAccess.Immutable⟩)]

/-- Example lowered type of `G(x: P) -> Int throws`. -/
def exErrFType : SILFunctionType :=
  ⟨⟨[], []⟩, ⟨FunctionRepresentation.thick⟩,
   [⟨exProtoP, ParameterConvention.indirectIn⟩],
   ⟨ASTType.intTy⟩, some ⟨ASTType.concreteTy "Error"⟩⟩

/-- Example transform input with an error result and a consumed argument. -/
def exErrCtx : ExistentialTransformCtx :=
  ⟨"G", 0, exErrFType, true,
   [⟨0, ⟨exPSIL, Option.none, {}, ParameterConvention.indirectIn⟩⟩],
   [(0, ⟨true, OpenedExistentialAccess.Immutable⟩)]⟩

/-- Placeholder thunk value used only as a `getD` default. -/
def junkThunkOutput : ThunkOutput :=
  ⟨"", 0, exFType, ThunkKind.isNotThunk, InlineStrategy.inlineDefault, [],
   [], Terminator.unreachableInst, Option.none, Option.none, [], []⟩

/-- Placeholder driver value used only as a `getD` default. -/
def junkDriverResult : DriverResult :=
  ⟨[], "", exFType, false, Option.none, junkThunkOutput⟩

/-- The driver run on the concrete scenario wired above. -/
def exDriverRun : DriverResult :=
  (createExistentialSpecializedFunction [] exCtx exBody).getD junkDriverResult

/-- The twin's specialized type on the concrete scenario. -/
def exNewFTy : SILFunctionType :=
  ((createExistentialSpecializedFunctionType exCtx).getD ⟨exFType, []⟩).newFType

/-- The specialized type of the throwing scenario's twin. -/
def exErrNewFTy : SILFunctionType :=
  ((createExistentialSpecializedFunctionType exErrCtx).getD ⟨exErrFType, []⟩).newFType

/-- The thunk built for the throwing scenario. -/
def exErrThunkOut : ThunkOutput :=
  (populateThunkBody exErrCtx "G_spec_0" exErrNewFTy exOneMap).getD
    junkThunkOutput

/-- The thunk built for the plain scenario. -/
def exThunkOut : ThunkOutput :=
  (populateThunkBody exCtx "F_spec_0" exNewFTy exOneMap).getD junkThunkOutput

/-- The Body Cloner state for the single unowned class argument. -/
def exUnownedCloneState : CloneState :=
  (cloneArguments true exOneMap exOneEad [exArgUnowned]).getD initialCloneState

/-- The Body Cloner step output for the borrowed opaque argument. -/
def exOpaqueCloneState : CloneState :=
  (cloneArgument true exOneMap exOneEad initialCloneState exArgBorrowed).getD
    initialCloneState

/-- The Body Cloner run for the two borrowed opaque arguments with a
returning body (the exit-cleanup example). -/
def exTwoRun : CloneState × List SILBasicBlock :=
  (cloneAndPopulateFunction true exTwoMap exTwoEad [exArgBorrowed, exArgBorrowed1]
    exBody).getD (initialCloneState, [])

/-- The synthesizer's output on the concrete scenario. -/
def exConvert : ConvertResult :=
  (convertExistentialArgTypesToGenericArgTypes exCtx).getD ⟨[], [], []⟩

/-- The ownership flavor of the value the cloner obtains from a
class-representation generic argument before boxing: the argument itself
when it is passed as an object, otherwise the owned result of the load
that fetches it out of its address (used to state the defensive-copy
rule; `valueOwnership` only depends on the type's category, which the
generic argument shares with the original argument). -/
def obtainedOwnership (d : ArgumentDescriptor) : OwnershipKind :=
  if d.arg.type.category = TypeCategory.object then
    valueOwnership true d.arg.type d.arg.convention
  else OwnershipKind.owned

/-- The Body Cloner step output for the unowned class argument. -/
def exUnownedStepState : CloneState :=
  (cloneArgument true exOneMap exOneEad initialCloneState exArgUnowned).getD
    initialCloneState

/-- Forwarding a call result through the thunk's normal/error paths is the
identity on the observable outcome. -/
theorem forwardCallResult_eq (r : ExecResult) : forwardCallResult r = r := by
  cases r <;> rfl

/-- On valid inputs, opening every transformed argument succeeds and
re-boxing the opened values restores the original arguments. -/
theorem openArgValues_rebox (transformed : List Bool)
    (args : List RuntimeValue)
    (h : validExistentialArgs transformed args = true) :
    ∃ opened, openArgValues transformed args = some opened ∧
      reboxArgValues transformed opened = some args := by
  induction transformed generalizing args with
  | nil =>
    cases args with
    | nil => exact ⟨[], rfl, rfl⟩
    | cons v vs => simp [validExistentialArgs] at h
  | cons tr ts ih =>
    cases args with
    | nil => simp [validExistentialArgs] at h
    | cons v vs =>
      rw [validExistentialArgs, Bool.and_eq_true] at h
      obtain ⟨h1, h2⟩ := h
      obtain ⟨opened, ho, hr⟩ := ih vs h2
      cases tr with
      | false =>
        refine ⟨v :: opened, ?_, ?_⟩
        · simp [openArgValues, ho]
        · simp [reboxArgValues, hr]
      | true =>
        cases v with
        | boxedVal t p =>
          refine ⟨RuntimeValue.concreteVal t p :: opened, ?_, ?_⟩
          · simp [openArgValues, openExistentialValue, ho]
          · simp [reboxArgValues, boxExistentialValue, hr]
        | intVal n => simp [RuntimeValue.isBoxed] at h1
        | concreteVal t p => simp [RuntimeValue.isBoxed] at h1

/-- C1: for every selection of transformed argument positions and every
valid input (transformed positions hold existential boxes), invoking the
pre-transform function and invoking the post-transform one — the thunk
opening the arguments, calling the twin built by the Body Cloner (which
re-boxes them for the unchanged cloned body), and forwarding result or
failure — produce identical observable results, including identical error
propagation. -/
theorem thunk_twin_behavioral_equivalence (transformed : List Bool)
    (body : List RuntimeValue → ExecResult) (args : List RuntimeValue)
    (h : validExistentialArgs transformed args = true) :
    thunkSem transformed (twinSem transformed body) args =
      some (origSem body args) := by
  obtain ⟨opened, ho, hr⟩ := openArgValues_rebox transformed args h
  simp [thunkSem, twinSem, origSem, ho, hr, forwardCallResult_eq]

/-- Witness for C1: the equivalence applied to a one-argument transformed
function at a concrete boxed input. -/
theorem thunk_twin_behavioral_equivalence_witness :
    validExistentialArgs [true] [RuntimeValue.boxedVal "T" 5] = true ∧
    thunkSem [true]
        (twinSem [true] (fun l => Except.ok (l.headD (RuntimeValue.intVal 0))))
        [RuntimeValue.boxedVal "T" 5] =
      some (origSem (fun l => Except.ok (l.headD (RuntimeValue.intVal 0)))
        [RuntimeValue.boxedVal "T" 5]) :=
  ⟨by decide,
   thunk_twin_behavioral_equivalence [true]
     (fun l => Except.ok (l.headD (RuntimeValue.intVal 0)))
     [RuntimeValue.boxedVal "T" 5] (by decide)⟩

/-- C2 counterexample: on two registered cleanup values (two non-consumed
opaque arguments, registration order ids 1 then 4) the Body Cloner emits
the exit destroys in forward registration order `destroy 1, destroy 4`,
not in the reverse order the claim states: the emitted exit block differs
from the reverse-destroy-order prescription. -/
theorem exit_destroys_in_forward_order :
    (cloneAndPopulateFunction true exTwoMap exTwoEad
        [exArgBorrowed, exArgBorrowed1] exBody).isSome = true ∧
    exTwoRun.1.cleanupValues.map SILValue.id = [1, 4] ∧
    exTwoRun.1.allocStackInsts.map SILValue.id = [1, 4] ∧
    (exTwoRun.2.headD ⟨[], Terminator.unreachableInst⟩).instrs =
      [InstrKind.destroyOp 1, InstrKind.destroyOp 4,
       InstrKind.deallocStack 4, InstrKind.deallocStack 1] ∧
    (exTwoRun.2.headD ⟨[], Terminator.unreachableInst⟩).instrs ≠
      (exTwoRun.1.cleanupValues.reverse.map
          (fun v => InstrKind.destroyOp v.id))
        ++ (exTwoRun.1.allocStackInsts.reverse.map
          (fun a => InstrKind.deallocStack a.id)) := by
  refine ⟨rfl, rfl, rfl, rfl, ?_⟩
  decide

/-- C9 counterexample: in the spec's concrete borrowed-opaque scenario the
thunk allocates no temporary stack slot and performs no deallocation at
all (the `alloc_stack`/`dealloc_stack` pair only exists when the argument
is consumed), contradicting the claim that the thunk deallocates its
temporary stack slot after the call. -/
theorem scenario_thunk_no_temp_dealloc :
    (createExistentialSpecializedFunction [] exCtx exBody).isSome = true ∧
    exDriverRun.thunk.entryInstrs.countP isDeallocStackInstr = 0 ∧
    exDriverRun.thunk.entryInstrs.countP isAllocStackInstr = 0 ∧
    exDriverRun.thunk.temps = [] := by
  refine ⟨rfl, rfl, rfl, rfl⟩

/-- C9 (amended): in the borrowed-opaque scenario `F(x: P) -> Int` the
transform produces the twin `Twin<T: P>(x: T) -> Int` with a borrowing
generic parameter, and a thunk that keeps the original signature, opens
`x` immutably, passes the opened address directly to the twin (no
temporary stack slot is created or deallocated), and returns the twin's
result unchanged. -/
theorem scenario_borrowed_opaque_transform :
    exDriverRun.newFType =
      ⟨⟨[⟨0, 0⟩], [⟨RequirementKind.conformance, ⟨0, 0⟩, exProtoP⟩]⟩,
       ⟨FunctionRepresentation.thin⟩,
       [⟨ASTType.genericParamTy 0 0, ParameterConvention.indirectInGuaranteed⟩],
       ⟨ASTType.intTy⟩, Option.none⟩ ∧
    exDriverRun.thunk.loweredType = exFType ∧
    exDriverRun.thunk.entryArgs = [⟨exPSIL, Option.none, {}⟩] ∧
    exDriverRun.thunk.entryInstrs =
      [InstrKind.functionRef 1 "F_spec_0",
       InstrKind.openExistentialAddr 2 0 OpenedExistentialAccess.Immutable,
       InstrKind.applyInst 3 1 [2]] ∧
    exDriverRun.thunk.entryTerm = Terminator.returnInst 3 ∧
    exDriverRun.thunk.temps = [] := by
  refine ⟨rfl, rfl, rfl, rfl, rfl, rfl⟩

/-- C6: in the twin's entry block, a transformed argument with opaque
existential representation is handled by allocating a fresh existential
stack slot, projecting the concrete payload address, and copying the
generic argument's value into it with a take exactly when the original
convention consumed the argument; the slot is registered for destruction
at every exit exactly in the non-consumed case, and the value fed into
the cloned body at that position is the address of this slot. -/
theorem opaque_entry_boxing (hasOwnership : Bool)
    (map : List (Nat × GenericTypeParamType))
    (ead : List (Nat × ExistentialTransformArgumentDescriptor))
    (st : CloneState) (d : ArgumentDescriptor) (gp : GenericTypeParamType)
    (etad : ExistentialTransformArgumentDescriptor) (out : CloneState)
    (hmap : lookupIdx map d.index = some gp)
    (head : lookupIdx ead d.index = some etad)
    (hrepr : d.arg.type.preferredExistentialRepresentation =
      ExistentialRepresentation.Opaque)
    (h : cloneArgument hasOwnership map ead st d = some out) :
    ∃ asi : SILValue,
      asi.id = st.builder.nextId + 1 ∧
      asi.type = ⟨d.arg.type.ast, TypeCategory.address⟩ ∧
      out.builder.instrs = st.builder.instrs ++
        [InstrKind.allocStack asi.id d.arg.type,
         InstrKind.initExistentialAddr (asi.id + 1) asi.id
           (ASTType.genericParamTy gp.depth gp.index),
         InstrKind.copyAddr st.builder.nextId (asi.id + 1)
           etad.isConsumed] ∧
      out.entryArgs = st.entryArgs ++ [asi] ∧
      out.allocStackInsts = st.allocStackInsts ++ [asi] ∧
      out.cleanupValues = st.cleanupValues ++
        (if etad.isConsumed then [] else [asi]) := by
  unfold cloneArgument at h
  rw [hmap, head, hrepr] at h
  simp only [CloneState.createFunctionArgument, SILBuilder.fresh,
    SILBuilder.createAllocStack, SILBuilder.createInitExistentialAddr,
    SILBuilder.createCopyAddr, SILBuilder.emit, Option.getD_some,
    Option.some.injEq] at h
  subst h
  refine ⟨⟨st.builder.nextId + 1, ⟨d.arg.type.ast, TypeCategory.address⟩,
    OwnershipKind.noOwnership⟩, rfl, rfl, ?_, ?_, ?_, ?_⟩ <;>
    cases hc : etad.isConsumed <;>
    simp [hc, List.append_assoc]

/-- Witness for C6: the borrowed opaque argument at the initial state. -/
theorem opaque_entry_boxing_witness :
    (lookupIdx exOneMap 0 = some ⟨0, 0⟩ ∧
     lookupIdx exOneEad 0 =
       some ⟨false, OpenedExistentialAccess.Immutable⟩ ∧
     exArgBorrowed.arg.type.preferredExistentialRepresentation =
       ExistentialRepresentation.Opaque ∧
     cloneArgument true exOneMap exOneEad initialCloneState exArgBorrowed =
       some exOpaqueCloneState) ∧
    ∃ asi : SILValue,
      asi.id = initialCloneState.builder.nextId + 1 ∧
      asi.type = ⟨exArgBorrowed.arg.type.ast, TypeCategory.address⟩ ∧
      exOpaqueCloneState.builder.instrs = initialCloneState.builder.instrs ++
        [InstrKind.allocStack asi.id exArgBorrowed.arg.type,
         InstrKind.initExistentialAddr (asi.id + 1) asi.id
           (ASTType.genericParamTy 0 0),
         InstrKind.copyAddr initialCloneState.builder.nextId (asi.id + 1)
           false] ∧
      exOpaqueCloneState.entryArgs = initialCloneState.entryArgs ++ [asi] ∧
      exOpaqueCloneState.allocStackInsts =
        initialCloneState.allocStackInsts ++ [asi] ∧
      exOpaqueCloneState.cleanupValues = initialCloneState.cleanupValues ++
        (if false then [] else [asi]) :=
  ⟨⟨rfl, rfl, rfl, rfl⟩,
   opaque_entry_boxing true exOneMap exOneEad initialCloneState exArgBorrowed
     ⟨0, 0⟩ ⟨false, OpenedExistentialAccess.Immutable⟩ exOpaqueCloneState
     rfl rfl rfl rfl⟩

/-- C8: in an ownership-tracking function, a transformed class-representation
argument receives the extra defensive copy before boxing exactly when the
obtained value's ownership flavor is unowned — no other flavor does — and
in that case the boxed existential reference created from the copy (which
forwards the copy's owned ownership) is registered for destruction at
every exit. -/
theorem class_unowned_defensive_copy
    (map : List (Nat × GenericTypeParamType))
    (ead : List (Nat × ExistentialTransformArgumentDescriptor))
    (st : CloneState) (d : ArgumentDescriptor) (gp : GenericTypeParamType)
    (etad : ExistentialTransformArgumentDescriptor) (out : CloneState)
    (hmap : lookupIdx map d.index = some gp)
    (head : lookupIdx ead d.index = some etad)
    (hrepr : d.arg.type.preferredExistentialRepresentation =
      ExistentialRepresentation.Class)
    (h : cloneArgument true map ead st d = some out) :
    ((out.builder.instrs.drop st.builder.instrs.length).any isCopyValueInstr =
        true ↔
      obtainedOwnership d = OwnershipKind.unowned) ∧
    (out.cleanupValues ≠ st.cleanupValues ↔
      obtainedOwnership d = OwnershipKind.unowned) ∧
    (obtainedOwnership d = OwnershipKind.unowned →
      out.builder.instrs = st.builder.instrs ++
        [InstrKind.copyValue (st.builder.nextId + 1) st.builder.nextId,
         InstrKind.initExistentialRef (st.builder.nextId + 2)
           (st.builder.nextId + 1) (d.arg.type.getObjectType)
           (ASTType.genericParamTy gp.depth gp.index)] ∧
      out.cleanupValues = st.cleanupValues ++
        [⟨st.builder.nextId + 2, d.arg.type.getObjectType,
          OwnershipKind.owned⟩]) := by
  unfold cloneArgument at h
  rw [hmap, head, hrepr] at h
  cases hcat : d.arg.type.category <;>
    cases hconv : d.arg.convention <;>
      (simp +decide only [hcat, hconv, CloneState.createFunctionArgument,
         SILBuilder.fresh, SILBuilder.emitLoadValueOperation,
         SILBuilder.createOpenExistentialRef,
         SILBuilder.emitCopyValueOperation,
         SILBuilder.createInitExistentialRef, SILBuilder.createAllocStack,
         SILBuilder.emitStoreValueOperation, SILBuilder.emit,
         SILType.isObject, valueOwnership, Option.some.injEq] at h
       subst h
       constructor
       · simp +decide [obtainedOwnership, valueOwnership, hcat, hconv,
           isCopyValueInstr, SILType.getObjectType, List.drop_left]
       constructor
       · simp +decide [obtainedOwnership, valueOwnership, hcat, hconv,
           List.append_right_eq_self]
       · intro hun
         simp +decide [obtainedOwnership, valueOwnership, hcat, hconv]
           at hun <;>
           simp +decide [hun, SILType.getObjectType, List.append_assoc])

/-- Witness for C8: the unowned class argument at the initial state. -/
theorem class_unowned_defensive_copy_witness :
    (lookupIdx exOneMap 0 = some ⟨0, 0⟩ ∧
     lookupIdx exOneEad 0 =
       some ⟨false, OpenedExistentialAccess.Immutable⟩ ∧
     exArgUnowned.arg.type.preferredExistentialRepresentation =
       ExistentialRepresentation.Class ∧
     cloneArgument true exOneMap exOneEad initialCloneState exArgUnowned =
       some exUnownedStepState) ∧
    (((exUnownedStepState.builder.instrs.drop
          initialCloneState.builder.instrs.length).any isCopyValueInstr =
        true ↔
      obtainedOwnership exArgUnowned = OwnershipKind.unowned) ∧
     (exUnownedStepState.cleanupValues ≠ initialCloneState.cleanupValues ↔
      obtainedOwnership exArgUnowned = OwnershipKind.unowned) ∧
     (obtainedOwnership exArgUnowned = OwnershipKind.unowned →
      exUnownedStepState.builder.instrs =
        initialCloneState.builder.instrs ++
        [InstrKind.copyValue (initialCloneState.builder.nextId + 1)
           initialCloneState.builder.nextId,
         InstrKind.initExistentialRef (initialCloneState.builder.nextId + 2)
           (initialCloneState.builder.nextId + 1)
           (exArgUnowned.arg.type.getObjectType)
           (ASTType.genericParamTy 0 0)] ∧
      exUnownedStepState.cleanupValues =
        initialCloneState.cleanupValues ++
        [⟨initialCloneState.builder.nextId + 2,
          exArgUnowned.arg.type.getObjectType, OwnershipKind.owned⟩])) :=
  ⟨⟨rfl, rfl, rfl, rfl⟩,
   class_unowned_defensive_copy exOneMap exOneEad initialCloneState
     exArgUnowned ⟨0, 0⟩ ⟨false, OpenedExistentialAccess.Immutable⟩
     exUnownedStepState rfl rfl rfl rfl⟩

/-- One cloner step preserves the invariant that no registered cleanup
value is guaranteed: the opaque branch registers the fresh stack slot
(no ownership) and the class branch registers only the box built from the
owned defensive copy. -/
theorem cloneArgument_cleanup_not_guaranteed (hasOwnership : Bool)
    (map : List (Nat × GenericTypeParamType))
    (ead : List (Nat × ExistentialTransformArgumentDescriptor))
    (st : CloneState) (d : ArgumentDescriptor) (out : CloneState)
    (h : cloneArgument hasOwnership map ead st d = some out)
    (inv : ∀ v ∈ st.cleanupValues, v.ownership ≠ OwnershipKind.guaranteed) :
    ∀ v ∈ out.cleanupValues, v.ownership ≠ OwnershipKind.guaranteed := by
  unfold cloneArgument at h
  cases hm : lookupIdx map d.index with
  | none =>
    rw [hm] at h
    simp only [CloneState.createFunctionArgument, SILBuilder.fresh,
      Option.some.injEq] at h
    subst h
    exact inv
  | some gp =>
    rw [hm] at h
    cases hrepr : d.arg.type.preferredExistentialRepresentation <;>
      rw [hrepr] at h
    case NoneRepr => exact Option.noConfusion h
    case Metatype => exact Option.noConfusion h
    case Boxed => exact Option.noConfusion h
    case Opaque =>
      cases hic : ((lookupIdx ead d.index).getD
          ⟨false, OpenedExistentialAccess.Immutable⟩).isConsumed with
      | true =>
        simp +decide only [hic, CloneState.createFunctionArgument,
          SILBuilder.fresh, SILBuilder.createAllocStack,
          SILBuilder.createInitExistentialAddr, SILBuilder.createCopyAddr,
          SILBuilder.emit, Option.some.injEq] at h
        subst h
        intro v hv
        exact inv v hv
      | false =>
        simp +decide [hic, CloneState.createFunctionArgument,
          SILBuilder.fresh, SILBuilder.createAllocStack,
          SILBuilder.createInitExistentialAddr, SILBuilder.createCopyAddr,
          SILBuilder.emit] at h
        subst h
        intro v hv
        simp at hv
        rcases hv with hv | rfl
        · exact inv v hv
        · simp
    case Class =>
      cases hho : hasOwnership <;>
      cases hcat : d.arg.type.category <;>
      cases hconv : d.arg.convention <;>
      cases hic : ((lookupIdx ead d.index).getD
          ⟨false, OpenedExistentialAccess.Immutable⟩).isConsumed <;>
        (simp +decide [hho, hcat, hconv, hic,
           CloneState.createFunctionArgument, SILBuilder.fresh,
           SILBuilder.emitLoadValueOperation,
           SILBuilder.createOpenExistentialRef,
           SILBuilder.emitCopyValueOperation,
           SILBuilder.createInitExistentialRef, SILBuilder.createAllocStack,
           SILBuilder.emitStoreValueOperation, SILBuilder.emit,
           SILType.isObject, valueOwnership] at h
         subst h
         intro v hv
         simp at hv
         first
         | (rcases hv with hv | rfl
            · exact inv v hv
            · simp)
         | exact inv v hv)

/-- The cloner loop preserves the no-guaranteed-cleanup invariant. -/
theorem cloneArgumentsLoop_cleanup_not_guaranteed (hasOwnership : Bool)
    (map : List (Nat × GenericTypeParamType))
    (ead : List (Nat × ExistentialTransformArgumentDescriptor)) :
    ∀ (args : List ArgumentDescriptor) (st out : CloneState),
      cloneArgumentsLoop hasOwnership map ead st args = some out →
      (∀ v ∈ st.cleanupValues, v.ownership ≠ OwnershipKind.guaranteed) →
      ∀ v ∈ out.cleanupValues, v.ownership ≠ OwnershipKind.guaranteed := by
  intro args
  induction args with
  | nil =>
    intro st out h inv
    unfold cloneArgumentsLoop at h
    simp only [Option.some.injEq] at h
    subst h
    exact inv
  | cons d rest ih =>
    intro st out h inv
    unfold cloneArgumentsLoop at h
    cases hstep : cloneArgument hasOwnership map ead st d with
    | none => rw [hstep] at h; exact Option.noConfusion h
    | some st' =>
      rw [hstep] at h
      exact ih st' out h
        (cloneArgument_cleanup_not_guaranteed hasOwnership map ead st d st'
          hstep inv)

/-- C10: every value registered in the Body Cloner's cleanup-values list
during entry-block construction has an ownership kind other than
Guaranteed, so the destroy asserted and emitted for each of them at every
function exit is valid and `cloneAndPopulateFunction`'s assertion never
fires: the build always completes with the exit cleanups inserted. -/
theorem cleanup_values_never_guaranteed (hasOwnership : Bool)
    (map : List (Nat × GenericTypeParamType))
    (ead : List (Nat × ExistentialTransformArgumentDescriptor))
    (args : List ArgumentDescriptor) (st : CloneState)
    (h : cloneArguments hasOwnership map ead args = some st) :
    (∀ v ∈ st.cleanupValues, v.ownership ≠ OwnershipKind.guaranteed) ∧
    (∀ body, cloneAndPopulateFunction hasOwnership map ead args body =
      some (st, body.map (emitExitCleanup st.cleanupValues
        st.allocStackInsts))) := by
  have h1 : ∀ v ∈ st.cleanupValues, v.ownership ≠ OwnershipKind.guaranteed := by
    refine cloneArgumentsLoop_cleanup_not_guaranteed hasOwnership map ead
      args initialCloneState st h ?_
    intro v hv
    simp [initialCloneState] at hv
  refine ⟨h1, fun body => ?_⟩
  have h2 : st.cleanupValues.all
      (fun v => v.ownership != OwnershipKind.guaranteed) = true := by
    rw [List.all_eq_true]
    intro v hv
    simpa using h1 v hv
  simp [cloneAndPopulateFunction, h, h2]

/-- Witness for C10: the unowned class argument run. -/
theorem cleanup_values_never_guaranteed_witness :
    cloneArguments true exOneMap exOneEad [exArgUnowned] =
      some exUnownedCloneState ∧
    ∀ v ∈ exUnownedCloneState.cleanupValues,
      v.ownership ≠ OwnershipKind.guaranteed :=
  ⟨rfl,
   (cleanup_values_never_guaranteed true exOneMap exOneEad [exArgUnowned]
     exUnownedCloneState rfl).1⟩

/-- One destroy is emitted per registered cleanup value. -/
theorem countP_comp_destroy (l : List SILValue) :
    List.countP (isDestroyInstr ∘ fun v => InstrKind.destroyOp v.id) l =
      l.length := by
  induction l with
  | nil => rfl
  | cons a t ih => simp [List.countP_cons, Function.comp, isDestroyInstr, ih]

/-- The dealloc segment contributes no destroys. -/
theorem countP_comp_destroy_dealloc (l : List SILValue) :
    List.countP (isDestroyInstr ∘ fun a => InstrKind.deallocStack a.id) l =
      0 := by
  induction l with
  | nil => rfl
  | cons a t ih => simp [List.countP_cons, Function.comp, isDestroyInstr, ih]

/-- One deallocation is emitted per registered stack slot. -/
theorem countP_comp_dealloc (l : List SILValue) :
    List.countP (isDeallocStackInstr ∘ fun a => InstrKind.deallocStack a.id)
      l = l.length := by
  induction l with
  | nil => rfl
  | cons a t ih =>
    simp [List.countP_cons, Function.comp, isDeallocStackInstr, ih]

/-- The destroy segment contributes no deallocations. -/
theorem countP_comp_dealloc_destroy (l : List SILValue) :
    List.countP (isDeallocStackInstr ∘ fun v => InstrKind.destroyOp v.id) l =
      0 := by
  induction l with
  | nil => rfl
  | cons a t ih =>
    simp [List.countP_cons, Function.comp, isDeallocStackInstr, ih]

/-- C2 (amended): after a successful build, every exiting block (return,
throw, unreachable) has, immediately before its terminator, one destroy
per registered cleanup value in forward registration order followed by
one deallocation per registered stack slot in reverse registration order
— each list contributing exactly its length, i.e. consulted exactly once
per exit — and non-exiting blocks are untouched. -/
theorem exit_cleanup_discipline (hasOwnership : Bool)
    (map : List (Nat × GenericTypeParamType))
    (ead : List (Nat × ExistentialTransformArgumentDescriptor))
    (args : List ArgumentDescriptor) (body : List SILBasicBlock)
    (st : CloneState) (out : List SILBasicBlock)
    (h : cloneAndPopulateFunction hasOwnership map ead args body =
      some (st, out)) :
    out = body.map (emitExitCleanup st.cleanupValues st.allocStackInsts) ∧
    ∀ bb ∈ body,
      (bb.term.isFunctionExiting = true →
        emitExitCleanup st.cleanupValues st.allocStackInsts bb =
          ⟨bb.instrs
             ++ st.cleanupValues.map (fun v => InstrKind.destroyOp v.id)
             ++ st.allocStackInsts.reverse.map
               (fun a => InstrKind.deallocStack a.id),
           bb.term⟩ ∧
        (emitExitCleanup st.cleanupValues st.allocStackInsts bb).instrs.countP
            isDestroyInstr =
          bb.instrs.countP isDestroyInstr + st.cleanupValues.length ∧
        (emitExitCleanup st.cleanupValues st.allocStackInsts bb).instrs.countP
            isDeallocStackInstr =
          bb.instrs.countP isDeallocStackInstr +
            st.allocStackInsts.length) ∧
      (bb.term.isFunctionExiting = false →
        emitExitCleanup st.cleanupValues st.allocStackInsts bb = bb) := by
  unfold cloneAndPopulateFunction at h
  cases hargs : cloneArguments hasOwnership map ead args with
  | none => simp only [hargs] at h; exact Option.noConfusion h
  | some st0 =>
    simp only [hargs] at h
    by_cases hall : st0.cleanupValues.all
        (fun v => v.ownership != OwnershipKind.guaranteed) = true
    · rw [if_pos hall] at h
      simp only [Option.some.injEq, Prod.mk.injEq] at h
      obtain ⟨hst, hout⟩ := h
      subst hst
      refine ⟨hout.symm, fun bb _ => ⟨fun hex => ?_, fun hnex => ?_⟩⟩
      · refine ⟨by simp [emitExitCleanup, hex], ?_, ?_⟩
        · simp [emitExitCleanup, hex, List.countP_append,
            countP_comp_destroy, countP_comp_destroy_dealloc]
        · simp [emitExitCleanup, hex, List.countP_append,
            countP_comp_dealloc, countP_comp_dealloc_destroy]
      · simp [emitExitCleanup, hnex]
    · rw [if_neg hall] at h
      exact Option.noConfusion h

/-- Witness for C2 (amended): the two-argument run, where the exit block
receives destroys for slots 1 and 4 in that order, then deallocations in
reverse. -/
theorem exit_cleanup_discipline_witness :
    cloneAndPopulateFunction true exTwoMap exTwoEad
        [exArgBorrowed, exArgBorrowed1] exBody =
      some (exTwoRun.1, exTwoRun.2) ∧
    exTwoRun.2 = exBody.map (emitExitCleanup exTwoRun.1.cleanupValues
      exTwoRun.1.allocStackInsts) :=
  ⟨rfl,
   (exit_cleanup_discipline true exTwoMap exTwoEad
     [exArgBorrowed, exArgBorrowed1] exBody exTwoRun.1 exTwoRun.2 rfl).1⟩

/-- C4: the thunk that replaces the original function preserves its
external signature exactly — one entry-block parameter per original
argument with the original type, declaration and flags, the name, linkage
and lowered type unchanged — while the thunk and inlining attributes are
set to signature-optimized-thunk and always-inline. -/
theorem thunk_signature_preserved (ctx : ExistentialTransformCtx)
    (newFName : String) (newFTy : SILFunctionType)
    (map : List (Nat × GenericTypeParamType)) (out : ThunkOutput)
    (h : populateThunkBody ctx newFName newFTy map = some out) :
    out.entryArgs = ctx.argumentDescList.map
      (fun d => ⟨d.arg.type, d.arg.decl, d.arg.flags⟩) ∧
    out.name = ctx.fName ∧
    out.linkage = ctx.fLinkage ∧
    out.loweredType = ctx.fType ∧
    out.thunk = ThunkKind.isSignatureOptimizedThunk ∧
    out.inlineStrategy = InlineStrategy.alwaysInline := by
  unfold populateThunkBody at h
  cases hloop : runThunkLoop ctx newFName map with
  | none => simp only [hloop] at h; exact Option.noConfusion h
  | some st =>
    simp only [hloop] at h
    cases hsub : buildThunkSubMap newFTy.invocationGenericSig
        ctx.fType.invocationGenericSig.getNextDepth
        st.genericToOpenedTypeMap with
    | none => simp only [hsub] at h; exact Option.noConfusion h
    | some subMap =>
      simp only [hsub] at h
      cases her : newFTy.errorResult with
      | some er =>
        simp only [her, Option.some.injEq] at h
        subst h
        exact ⟨rfl, rfl, rfl, rfl, rfl, rfl⟩
      | none =>
        simp only [her, Option.some.injEq] at h
        subst h
        exact ⟨rfl, rfl, rfl, rfl, rfl, rfl⟩

/-- Witness for C4: the thunk of the borrowed-opaque scenario. -/
theorem thunk_signature_preserved_witness :
    populateThunkBody exCtx "F_spec_0" exNewFTy exOneMap =
      some exThunkOut ∧
    exThunkOut.entryArgs = exCtx.argumentDescList.map
      (fun d => ⟨d.arg.type, d.arg.decl, d.arg.flags⟩) ∧
    exThunkOut.name = exCtx.fName ∧
    exThunkOut.linkage = exCtx.fLinkage ∧
    exThunkOut.loweredType = exCtx.fType ∧
    exThunkOut.thunk = ThunkKind.isSignatureOptimizedThunk ∧
    exThunkOut.inlineStrategy = InlineStrategy.alwaysInline :=
  ⟨rfl,
   thunk_signature_preserved exCtx "F_spec_0" exNewFTy exOneMap exThunkOut
     rfl⟩

/-- One thunk argument step never emits a plain `apply`: the open, load,
copy, box, store and alloc instructions it produces leave the apply count
unchanged. -/
theorem thunkProcessArgument_apply_count (hasOwnership : Bool)
    (map : List (Nat × GenericTypeParamType))
    (ead : List (Nat × ExistentialTransformArgumentDescriptor))
    (argVals : List SILValue) (st : ThunkLoopState)
    (d : ArgumentDescriptor) (st' : ThunkLoopState)
    (h : thunkProcessArgument hasOwnership map ead argVals st d = some st') :
    st'.builder.instrs.countP isApplyInstr =
      st.builder.instrs.countP isApplyInstr := by
  unfold thunkProcessArgument at h
  cases hm : lookupIdx map d.index <;>
    cases he : lookupIdx ead d.index <;>
      simp only [hm, he] at h <;>
      [skip; skip; skip;
       (cases hv : argVals[d.index]? with
        | none => simp only [hv] at h; exact Option.noConfusion h
        | some ov =>
          simp only [hv] at h
          cases hrepr : d.arg.type.preferredExistentialRepresentation <;>
            simp only [hrepr] at h
          case NoneRepr => exact Option.noConfusion h
          case Metatype => exact Option.noConfusion h
          case Boxed => exact Option.noConfusion h
          case Opaque =>
            rename_i etad
            cases hic : etad.isConsumed <;>
              (simp +decide [hic, SILBuilder.createOpenExistentialAddr,
                 SILBuilder.createAllocStack, SILBuilder.createCopyAddr,
                 SILBuilder.fresh, SILBuilder.emit] at h
               subst h
               simp [List.countP_append, List.countP_cons, isApplyInstr])
          case Class =>
            rename_i etad
            cases hho : hasOwnership <;>
            cases hocat : ov.type.category <;>
            cases hic : etad.isConsumed <;>
              (simp +decide [hho, hocat, hic, SILType.isObject,
                 SILBuilder.emitLoadValueOperation,
                 SILBuilder.emitCopyValueOperation,
                 SILBuilder.createOpenExistentialRef,
                 SILBuilder.createAllocStack,
                 SILBuilder.emitStoreValueOperation, SILBuilder.fresh,
                 SILBuilder.emit] at h
               subst h
               simp [List.countP_append, List.countP_cons, isApplyInstr]))] <;>
      (cases hv : argVals[d.index]? with
       | none => simp only [hv] at h; exact Option.noConfusion h
       | some v =>
         simp only [hv, Option.some.injEq] at h
         subst h
         rfl)

/-- The thunk argument loop never emits a plain `apply`. -/
theorem thunkLoop_apply_count (hasOwnership : Bool)
    (map : List (Nat × GenericTypeParamType))
    (ead : List (Nat × ExistentialTransformArgumentDescriptor))
    (argVals : List SILValue) :
    ∀ (args : List ArgumentDescriptor) (st st' : ThunkLoopState),
      thunkLoop hasOwnership map ead argVals st args = some st' →
      st'.builder.instrs.countP isApplyInstr =
        st.builder.instrs.countP isApplyInstr := by
  intro args
  induction args with
  | nil =>
    intro st st' h
    unfold thunkLoop at h
    simp only [Option.some.injEq] at h
    subst h
    rfl
  | cons d rest ih =>
    intro st st' h
    unfold thunkLoop at h
    cases hstep : thunkProcessArgument hasOwnership map ead argVals st d with
    | none => simp only [hstep] at h; exact Option.noConfusion h
    | some stMid =>
      simp only [hstep] at h
      rw [ih stMid st' h, thunkProcessArgument_apply_count hasOwnership map
        ead argVals st d stMid hstep]

/-- After the thunk's argument phase (which starts from just the
`function_ref`), the builder holds no plain `apply`. -/
theorem runThunkLoop_apply_count (ctx : ExistentialTransformCtx)
    (newFName : String) (map : List (Nat × GenericTypeParamType))
    (st : ThunkLoopState) (h : runThunkLoop ctx newFName map = some st) :
    st.builder.instrs.countP isApplyInstr = 0 := by
  unfold runThunkLoop at h
  rw [thunkLoop_apply_count ctx.hasOwnership map
    ctx.existentialArgDescriptor
    (thunkArgVals ctx.hasOwnership 0 ctx.argumentDescList)
    ctx.argumentDescList _ st h]
  rfl

/-- C7: when the twin's function type has an error result, the thunk's
entry block terminates in a failure-propagating `try_apply` with two
successor blocks — a normal block that receives the result (and carries
the post-call cleanups and the final return/unreachable) and an error
block that receives the failure value and immediately re-raises it
unchanged as the thunk's own throw — and no plain `apply` is emitted;
when the twin has no error result the thunk emits a plain direct call,
has no successor blocks, and returns the call's result. -/
theorem thunk_error_call_emission (ctx : ExistentialTransformCtx)
    (newFName : String) (newFTy : SILFunctionType)
    (map : List (Nat × GenericTypeParamType)) (out : ThunkOutput)
    (h : populateThunkBody ctx newFName newFTy map = some out) :
    (newFTy.hasErrorResult = true →
      ∃ nb eb : SuccessorBlock,
        out.normalBlock = some nb ∧ out.errorBlock = some eb ∧
        eb.instrs = [] ∧ eb.term = Terminator.throwInst eb.phiId ∧
        nb.instrs = tempCleanupInstrs out.temps ∧
        nb.term = (if newFTy.isNoReturnFunction then
          Terminator.unreachableInst else Terminator.returnInst nb.phiId) ∧
        (∃ callee, out.entryTerm = Terminator.tryApplyInst callee
          (out.applyArgs.map (fun v => v.id)) 1 2) ∧
        out.entryInstrs.countP isApplyInstr = 0) ∧
    (newFTy.hasErrorResult = false →
      out.normalBlock = Option.none ∧ out.errorBlock = Option.none ∧
      (∀ c a n e, out.entryTerm ≠ Terminator.tryApplyInst c a n e) ∧
      ∃ pre applyId callee, out.entryInstrs =
        pre ++ [InstrKind.applyInst applyId callee
          (out.applyArgs.map (fun v => v.id))] ++
          tempCleanupInstrs out.temps ∧
        out.entryTerm = (if newFTy.isNoReturnFunction then
          Terminator.unreachableInst else Terminator.returnInst applyId)) := by
  unfold populateThunkBody at h
  cases hloop : runThunkLoop ctx newFName map with
  | none => simp only [hloop] at h; exact Option.noConfusion h
  | some st =>
    simp only [hloop] at h
    cases hsub : buildThunkSubMap newFTy.invocationGenericSig
        ctx.fType.invocationGenericSig.getNextDepth
        st.genericToOpenedTypeMap with
    | none => simp only [hsub] at h; exact Option.noConfusion h
    | some subMap =>
      simp only [hsub] at h
      cases her : newFTy.errorResult with
      | some er =>
        simp only [her, Option.some.injEq] at h
        subst h
        constructor
        · intro _
          exact ⟨_, _, rfl, rfl, rfl, rfl, rfl, rfl,
            ⟨ctx.argumentDescList.length, rfl⟩,
            runThunkLoop_apply_count ctx newFName map st hloop⟩
        · intro hfalse
          simp [SILFunctionType.hasErrorResult, her] at hfalse
      | none =>
        simp only [her, Option.some.injEq] at h
        subst h
        constructor
        · intro htrue
          simp [SILFunctionType.hasErrorResult, her] at htrue
        · intro _
          refine ⟨rfl, rfl, ?_, st.builder.instrs, st.builder.nextId,
            ctx.argumentDescList.length, rfl, rfl⟩
          intro c a n e
          cases hnr : newFTy.isNoReturnFunction <;> simp [hnr]

/-- Witness for C7: the throwing scenario's thunk. -/
theorem thunk_error_call_emission_witness :
    populateThunkBody exErrCtx "G_spec_0" exErrNewFTy exOneMap =
      some exErrThunkOut ∧
    (exErrNewFTy.hasErrorResult = true →
      ∃ nb eb : SuccessorBlock,
        exErrThunkOut.normalBlock = some nb ∧
        exErrThunkOut.errorBlock = some eb ∧
        eb.instrs = [] ∧ eb.term = Terminator.throwInst eb.phiId ∧
        nb.instrs = tempCleanupInstrs exErrThunkOut.temps ∧
        nb.term = (if exErrNewFTy.isNoReturnFunction then
          Terminator.unreachableInst
          else Terminator.returnInst nb.phiId) ∧
        (∃ callee, exErrThunkOut.entryTerm = Terminator.tryApplyInst callee
          (exErrThunkOut.applyArgs.map (fun v => v.id)) 1 2) ∧
        exErrThunkOut.entryInstrs.countP isApplyInstr = 0) :=
  ⟨rfl,
   (thunk_error_call_emission exErrCtx "G_spec_0" exErrNewFTy exOneMap
     exErrThunkOut rfl).1⟩

/-- Along a depth-monotone parameter list, every depth is bounded by the
last parameter's depth. -/
theorem chain_depth_le_getLast :
    ∀ (l : List GenericTypeParamType),
      List.Chain' (fun a b => a.depth ≤ b.depth) l →
      ∀ q, l.getLast? = some q → ∀ p ∈ l, p.depth ≤ q.depth
  | [], _, q, hq, p, hp => by simp at hq
  | [a], _, q, hq, p, hp => by
    simp at hq hp
    subst hq
    subst hp
    exact Nat.le_refl _
  | a :: b :: t, h, q, hq, p, hp => by
    rw [List.chain'_cons] at h
    obtain ⟨hab, hrest⟩ := h
    rw [List.getLast?_cons_cons] at hq
    rcases List.mem_cons.mp hp with rfl | hp'
    · exact Nat.le_trans hab
        (chain_depth_le_getLast (b :: t) hrest q hq b (List.mem_cons_self b t))
    · exact chain_depth_le_getLast (b :: t) hrest q hq p hp'

/-- In a depth-monotone generic signature, `getNextDepth` is strictly
greater than every existing parameter's depth. -/
theorem depth_lt_nextDepth (sig : GenericSignature)
    (hmono : List.Chain' (fun a b => a.depth ≤ b.depth) sig.genericParams) :
    ∀ p ∈ sig.genericParams, p.depth < sig.getNextDepth := by
  intro p hp
  unfold GenericSignature.getNextDepth
  cases hg : sig.genericParams with
  | nil => rw [hg] at hp; simp at hp
  | cons a t =>
    rw [hg] at hp hmono
    have hne : (a :: t) ≠ ([] : List GenericTypeParamType) := by simp
    have hlast : (a :: t).getLast? = some ((a :: t).getLast hne) :=
      List.getLast?_eq_getLast _ hne
    rw [hlast]
    have := chain_depth_le_getLast (a :: t) hmono _ hlast p hp
    exact Nat.lt_succ_of_le this

/-- Pairwise relation on second components transfers to a zip. -/
theorem pairwise_zip_right {α β : Type} {R : β → β → Prop} :
    ∀ (l₁ : List α) (l₂ : List β), l₂.Pairwise R →
      (l₁.zip l₂).Pairwise (fun a b => R a.2 b.2)
  | [], _, _ => by simp
  | _ :: _, [], _ => by simp
  | a :: as, b :: bs, h => by
    rw [List.zip_cons_cons]
    rcases List.pairwise_cons.mp h with ⟨hb, hbs⟩
    refine List.pairwise_cons.mpr ⟨?_, pairwise_zip_right as bs hbs⟩
    intro x hx
    obtain ⟨x1, x2⟩ := x
    exact hb x2 (List.of_mem_zip hx).2

/-- The synthesizer loop's full characterization: one fresh parameter
`(depth, gpIdx + k)` per descriptor in iteration order, one conformance
requirement whose subject is that parameter and whose constraint is the
erased constraint of the corresponding function-type parameter, and the
mapping entry for every transformed index; every visited index denotes an
existential parameter. -/
theorem convertLoop_spec (params : List SILParameterInfo) (depth : Nat) :
    ∀ (l : List (Nat × ExistentialTransformArgumentDescriptor))
      (gpIdx : Nat) (r : ConvertResult),
      convertLoop params depth gpIdx l = some r →
      r.genericParams = (List.range' gpIdx l.length).map
        (fun k => ⟨depth, k⟩) ∧
      r.requirements = (r.genericParams.zip (l.map Prod.fst)).map
        (fun pr => ⟨RequirementKind.conformance, pr.1,
          paramConstraintAt params pr.2⟩) ∧
      r.argToGenericTypeMap = (l.map Prod.fst).zip r.genericParams ∧
      (∀ k ∈ l.map Prod.fst, ∃ q, params[k]? = some q ∧
        q.type.isExistentialType = true) := by
  intro l
  induction l with
  | nil =>
    intro gpIdx r h
    unfold convertLoop at h
    simp only [Option.some.injEq] at h
    subst h
    exact ⟨rfl, rfl, rfl, by simp⟩
  | cons p rest ih =>
    intro gpIdx r h
    obtain ⟨idx, ed⟩ := p
    unfold convertLoop at h
    cases hq : params[idx]? with
    | none => simp only [hq] at h; exact Option.noConfusion h
    | some q =>
      simp only [hq] at h
      by_cases hex : q.type.isExistentialType = true
      · rw [if_pos hex] at h
        cases hrec : convertLoop params depth (gpIdx + 1) rest with
        | none => simp only [hrec] at h; exact Option.noConfusion h
        | some r0 =>
          simp only [hrec, Option.some.injEq] at h
          subst h
          obtain ⟨h1, h2, h3, h4⟩ := ih (gpIdx + 1) r0 hrec
          refine ⟨?_, ?_, ?_, ?_⟩
          · simp only [List.length_cons, List.range'_succ, List.map_cons]
            rw [h1]
          · simp only [List.map_cons, List.zip_cons_cons]
            rw [show paramConstraintAt params idx = q.type.eraseToConstraint
              by simp [paramConstraintAt, hq], h2]
          · simp only [List.map_cons, List.zip_cons_cons]
            rw [h3]
          · intro k hk
            rcases List.mem_cons.mp hk with rfl | hk'
            · exact ⟨q, hq, hex⟩
            · exact h4 k hk'
      · rw [if_neg hex] at h
        exact Option.noConfusion h

/-- C5: the Generic Signature Synthesizer produces exactly one fresh
generic parameter per transformed argument, all at the depth one past the
original signature's deepest parameter (strictly greater than every
existing depth, given the signature's depth-monotonicity invariant), with
parameter indices 0, 1, … assigned in iteration order of the descriptor
map (ascending original argument position, the map being iterated in
ascending index order in this model); exactly one conformance requirement
per new parameter whose subject is that parameter and whose constraint is
the erased constraint type of the argument's existential parameter type;
and it records the index-to-parameter mapping for every transformed
index. -/
theorem generic_signature_synthesis (ctx : ExistentialTransformCtx)
    (r : ConvertResult)
    (h : convertExistentialArgTypesToGenericArgTypes ctx = some r)
    (hmono : List.Chain' (fun a b => a.depth ≤ b.depth)
      ctx.fType.invocationGenericSig.genericParams) :
    r.genericParams =
      (List.range' 0 ctx.existentialArgDescriptor.length).map
        (fun k => ⟨ctx.fType.invocationGenericSig.getNextDepth, k⟩) ∧
    (∀ p ∈ ctx.fType.invocationGenericSig.genericParams,
      p.depth < ctx.fType.invocationGenericSig.getNextDepth) ∧
    r.requirements = (r.genericParams.zip
      (ctx.existentialArgDescriptor.map Prod.fst)).map
      (fun pr => ⟨RequirementKind.conformance, pr.1,
        paramConstraintAt ctx.fType.params pr.2⟩) ∧
    r.argToGenericTypeMap =
      (ctx.existentialArgDescriptor.map Prod.fst).zip r.genericParams ∧
    List.Pairwise (fun a b => a.2.index < b.2.index)
      r.argToGenericTypeMap ∧
    (∀ k ∈ ctx.existentialArgDescriptor.map Prod.fst,
      ∃ q, ctx.fType.params[k]? = some q ∧
        q.type.isExistentialType = true) := by
  unfold convertExistentialArgTypesToGenericArgTypes at h
  obtain ⟨h1, h2, h3, h4⟩ := convertLoop_spec ctx.fType.params
    ctx.fType.invocationGenericSig.getNextDepth
    ctx.existentialArgDescriptor 0 r h
  refine ⟨h1, depth_lt_nextDepth _ hmono, h2, h3, ?_, h4⟩
  rw [h3, h1]
  have hpw : List.Pairwise (fun a b => a.index < b.index)
      ((List.range' 0 ctx.existentialArgDescriptor.length).map
        (fun k => (⟨ctx.fType.invocationGenericSig.getNextDepth, k⟩ :
          GenericTypeParamType))) := by
    refine List.Pairwise.map _ ?_ (List.pairwise_lt_range' _ _)
    intro a b hab
    simpa using hab
  exact pairwise_zip_right _ _ hpw

/-- Witness for C5: the borrowed-opaque scenario's synthesizer run. -/
theorem generic_signature_synthesis_witness :
    (convertExistentialArgTypesToGenericArgTypes exCtx = some exConvert ∧
     List.Chain' (fun a b => a.depth ≤ b.depth)
       exCtx.fType.invocationGenericSig.genericParams) ∧
    (exConvert.genericParams =
      (List.range' 0 exCtx.existentialArgDescriptor.length).map
        (fun k => ⟨exCtx.fType.invocationGenericSig.getNextDepth, k⟩) ∧
    (∀ p ∈ exCtx.fType.invocationGenericSig.genericParams,
      p.depth < exCtx.fType.invocationGenericSig.getNextDepth) ∧
    exConvert.requirements = (exConvert.genericParams.zip
      (exCtx.existentialArgDescriptor.map Prod.fst)).map
      (fun pr => ⟨RequirementKind.conformance, pr.1,
        paramConstraintAt exCtx.fType.params pr.2⟩) ∧
    exConvert.argToGenericTypeMap =
      (exCtx.existentialArgDescriptor.map Prod.fst).zip
        exConvert.genericParams ∧
    List.Pairwise (fun a b => a.2.index < b.2.index)
      exConvert.argToGenericTypeMap ∧
    (∀ k ∈ exCtx.existentialArgDescriptor.map Prod.fst,
      ∃ q, exCtx.fType.params[k]? = some q ∧
        q.type.isExistentialType = true)) :=
  ⟨⟨rfl, List.chain'_nil⟩,
   generic_signature_synthesis exCtx exConvert rfl List.chain'_nil⟩

/-- Looking up a name absent from the table finds the newly appended
function. -/
theorem lookUpFunction_append_of_none (fns : List SILFunctionInfo)
    (x : SILFunctionInfo)
    (h : lookUpFunction fns x.name = Option.none) :
    lookUpFunction (fns ++ [x]) x.name = some x := by
  unfold lookUpFunction at h ⊢
  induction fns with
  | nil => simp
  | cons a t ih =>
    cases hpa : (a.name == x.name) with
    | true =>
      simp only [List.find?, hpa] at h
      exact Option.noConfusion h
    | false =>
      simp only [List.cons_append, List.find?, hpa] at h ⊢
      exact ih h

/-- A name absent from the table occurs zero times in it. -/
theorem countP_name_eq_zero (fns : List SILFunctionInfo) (name : String)
    (h : lookUpFunction fns name = Option.none) :
    fns.countP (fun f => f.name == name) = 0 := by
  unfold lookUpFunction at h
  rw [List.find?_eq_none] at h
  rw [List.countP_eq_zero]
  intro a ha
  simpa using h a ha

/-- C3: running the transform twice on the same original function and the
same transformed-index set yields one twin reused by both runs: the
specialized name and type are pure functions of the input (the second run
recomputes them identically), the second run's cache lookup hits, the
asserted type equality holds, the cached twin is reused, the module table
is unchanged, and the twin's name occurs exactly once in it. -/
theorem idempotent_caching (fns : List SILFunctionInfo)
    (ctx : ExistentialTransformCtx) (origBody : List SILBasicBlock)
    (r1 : DriverResult)
    (h0 : lookUpFunction fns
      (createExistentialSpecializedFunctionName ctx) = Option.none)
    (h1 : createExistentialSpecializedFunction fns ctx origBody = some r1) :
    ∃ r2, createExistentialSpecializedFunction r1.functions ctx origBody =
        some r2 ∧
      r2.reusedCache = true ∧
      r2.functions = r1.functions ∧
      r2.newFName = r1.newFName ∧
      r2.newFType = r1.newFType ∧
      r1.functions.countP
        (fun f => f.name == createExistentialSpecializedFunctionName ctx) =
        1 := by
  unfold createExistentialSpecializedFunction at h1
  cases htb : createExistentialSpecializedFunctionType ctx with
  | none => simp only [htb] at h1; exact Option.noConfusion h1
  | some tb =>
    simp only [htb, h0] at h1
    cases htwin : cloneAndPopulateFunction ctx.hasOwnership
        tb.argToGenericTypeMap ctx.existentialArgDescriptor
        ctx.argumentDescList origBody with
    | none => simp only [htwin] at h1; exact Option.noConfusion h1
    | some twin =>
      simp only [htwin] at h1
      cases hthunk : populateThunkBody ctx
          (createExistentialSpecializedFunctionName ctx) tb.newFType
          tb.argToGenericTypeMap with
      | none => simp only [hthunk] at h1; exact Option.noConfusion h1
      | some thunk =>
        simp only [hthunk, Option.some.injEq] at h1
        subst h1
        have hfind := lookUpFunction_append_of_none fns
          ⟨createExistentialSpecializedFunctionName ctx, tb.newFType⟩ h0
        refine ⟨⟨fns ++ [⟨createExistentialSpecializedFunctionName ctx,
            tb.newFType⟩], createExistentialSpecializedFunctionName ctx,
            tb.newFType, true, Option.none, thunk⟩, ?_, rfl, rfl, rfl, rfl,
            ?_⟩
        · unfold createExistentialSpecializedFunction
          simp only [htb, hfind]
          rw [if_pos (by simp)]
          simp only [hthunk]
        · rw [List.countP_append, countP_name_eq_zero fns _ h0]
          simp

/-- Witness for C3: two consecutive runs of the borrowed-opaque scenario,
the first on an empty module. -/
theorem idempotent_caching_witness :
    (lookUpFunction [] (createExistentialSpecializedFunctionName exCtx) =
       Option.none ∧
     createExistentialSpecializedFunction [] exCtx exBody =
       some exDriverRun) ∧
    ∃ r2, createExistentialSpecializedFunction exDriverRun.functions exCtx
        exBody = some r2 ∧
      r2.reusedCache = true ∧
      r2.functions = exDriverRun.functions ∧
      r2.newFName = exDriverRun.newFName ∧
      r2.newFType = exDriverRun.newFType ∧
      exDriverRun.functions.countP
        (fun f => f.name ==
          createExistentialSpecializedFunctionName exCtx) = 1 :=
  ⟨⟨rfl, rfl⟩, idempotent_caching [] exCtx exBody exDriverRun rfl rfl⟩

end ETransform
